import Mathlib

/-!
# neonx/org_mixer: a software audio mixer

A shallow embedding of `src/neonx/org_mixer.c` / `org_mixer.h`.

* Chunk objects live in a `Heap`, a list of cells indexed by address; a chunk
  pointer is `Option Nat` (`none` is `NULL`).  A cell that holds `none` has been
  freed.  Dereferencing `NULL`, a freed cell or an address outside the heap is
  undefined behaviour in C and yields `Outcome.undefined` here, and so does an
  array access outside `channels[NUM_CHANNELS]`.
* `int` values are `Int`, `uint8_t` values are `Nat`.
* The semaphores are not modelled: every operation runs alone, so each
  `sem_wait` succeeds at once.  Logging is dropped.
* `SDL_MixAudioFormat` belongs to SDL.  Its sample arithmetic is the parameter
  `blend`; the embedding fixes only which bytes it reads and writes.
* The `while` loop of `MixCallback` need not terminate, so it is run with fuel.
* `Pass.trace` is a log of the externally visible actions of a mixing pass
  (mix calls, chunk callbacks, `free` calls); it does not influence the run.
-/

namespace OrgMixer

/-! ## Constants and types (`org_mixer.h`) -/

def NUM_CHANNELS : Nat := 16

def MAX_VOL : Nat := 128

/-- Return codes of `common/retcodes.h`.  That header is not among the sources,
so the codes are a parameter of every function that returns one. -/
structure RetCodes where
  rSUCCESS : Int
  rSORRY : Int
  rBADARG : Int
  rFAIL : Int
  rSDLERR : Int
deriving DecidableEq, Repr

/-- A `mix_chunk *`: `none` is `NULL`, `some a` the chunk at address `a`. -/
abbrev Ptr := Option Nat

/-- The struct `mix_chunk`.  `buf` is the list of bytes readable behind the
`buf` pointer (empty for `NULL` or a freed buffer); `callback` is a function
pointer, given as an index into the table of hooks. -/
structure mix_chunk where
  buf : List Nat
  buflen : Int
  deallocate_buf : Nat
  deallocate_me : Nat
  bufpos : Int
  callback : Option Nat
  nextChunk : Ptr
deriving DecidableEq, Repr

/-- The struct `mix_channel`. -/
structure mix_channel where
  chunk : Ptr
  volume : Nat
  reserved : Nat
  playing : Nat
deriving DecidableEq, Repr

/-- Modelled from the spec: the `voidstack` of `common/stack.h`, which is not
among the sources.  Section 4.3 describes a per-channel LIFO of suspended chunk
chain heads with `push`, `pop` and a queryable `size`.  The top is the head of
`items`. -/
structure voidstack where
  items : List Ptr
deriving DecidableEq, Repr

/-- Modelled from the spec: `chunkstacks[i].size`, the depth of the stack. -/
def voidstack.size (s : voidstack) : Int := s.items.length

/-- Modelled from the spec: `chunkstacks[i].top`, `NULL` for an empty stack. -/
def voidstack.top (s : voidstack) : Ptr := s.items.head?.join

/-- Modelled from the spec: `voidpush` of `common/stack.h`, pushing on top. -/
def voidpush (s : voidstack) (p : Ptr) : voidstack := ⟨p :: s.items⟩

/-- Modelled from the spec: `voidpop` of `common/stack.h`.  It removes and
returns the top; popping an empty stack is a caller error (`none`). -/
def voidpop (s : voidstack) : Option (voidstack × Ptr) :=
  match s.items with
  | [] => none
  | p :: rest => some (⟨rest⟩, p)

/-- Memory holding the chunk objects. -/
abbrev Heap := List (Option mix_chunk)

/-- Dereference a chunk address. -/
def readChunk (h : Heap) (a : Nat) : Option mix_chunk :=
  match h[a]? with
  | some (some c) => some c
  | _ => none

/-- Store a chunk object at an address. -/
def writeChunk (h : Heap) (a : Nat) (c : mix_chunk) : Heap := h.set a (some c)

/-- The call `free(chunk)`: the cell is gone. -/
def freeChunk (h : Heap) (a : Nat) : Heap := h.set a none

/-- The static state of the mixer: `channels`, `chunkstacks`, and the chunk
objects the pointers refer to. -/
structure Mixer where
  heap : Heap
  channels : List mix_channel
  chunkstacks : List voidstack
deriving DecidableEq, Repr

/-- The arrays `channels` and `chunkstacks` have `NUM_CHANNELS` entries. -/
def Mixer.wf (m : Mixer) : Prop :=
  m.channels.length = NUM_CHANNELS ∧ m.chunkstacks.length = NUM_CHANNELS

instance (m : Mixer) : Decidable m.wf := by
  unfold Mixer.wf; exact inferInstance

/-- Result of running a piece of the C program. -/
inductive Outcome (α : Type) where
  | ok : α → Outcome α
  | undefined : Outcome α
  | outOfFuel : Outcome α
deriving DecidableEq, Repr

/-- Index into `channels` / `channelLocks` / `chunkstacks`. -/
def chanIndex (channelid : Int) : Option Nat :=
  if 0 ≤ channelid ∧ channelid < (NUM_CHANNELS : Int) then some channelid.toNat else none

/-- A chunk callback `void * (*callback)(int channel, void * chunk)`.  It runs
inside the audio callback with all channel locks held, so it can reach the
chunk objects but not the channel table. -/
abbrev Hook := Int → Nat → Heap → Heap × Ptr

/-- The sample arithmetic of `SDL_MixAudioFormat` for the negotiated format:
from the destination bytes, the source bytes and the volume, the new value of
destination byte `k`. -/
abbrev Blend := List Nat → List Nat → Nat → Nat → Nat

/-- Actions of a mixing pass. -/
inductive Event where
  | mix (channel : Nat) (streampos : Int) (chunk : Nat) (bufpos : Int) (len : Int) (volume : Nat)
  | callback (channel : Nat) (chunk : Nat)
  | free_buf (chunk : Nat)
  | free_chunk (chunk : Nat)
deriving DecidableEq, Repr

/-- Whether a log entry is a call of `SDL_MixAudioFormat`. -/
def Event.isMix : Event → Bool
  | .mix _ _ _ _ _ _ => true
  | _ => false

/-- The channel a mix or a callback was made for. -/
def Event.channel? : Event → Option Nat
  | .mix c _ _ _ _ _ => some c
  | .callback c _ => some c
  | _ => none

/-- State of a mixing pass: the mixer, the output `stream`, and the log. -/
structure Pass where
  heap : Heap
  channels : List mix_channel
  chunkstacks : List voidstack
  stream : List Nat
  trace : List Event
deriving DecidableEq, Repr

/-- State of the inner `while` loop: the pass and the locals `streampos`,
`bytestogo`. -/
structure Loop where
  ps : Pass
  streampos : Int
  bytestogo : Int
deriving DecidableEq, Repr

/-! ## The mixing callback (`org_mixer.c`, lines 59-179) -/

/-- The call `SDL_MixAudioFormat(stream + streampos, buf + bufpos, format, len, volume)`:
bytes `[streampos, streampos + len)` of the stream are replaced by the blend of
their old value with bytes `[bufpos, bufpos + len)` of the buffer.  Reading or
writing outside either buffer is undefined (`none`). -/
def SDL_MixAudioFormat (blend : Blend) (stream : List Nat) (streampos : Int)
    (buf : List Nat) (bufpos : Int) (len : Int) (volume : Nat) : Option (List Nat) :=
  if 0 ≤ len ∧ 0 ≤ streampos ∧ streampos + len ≤ stream.length ∧
      0 ≤ bufpos ∧ bufpos + len ≤ buf.length then
    let dst := (stream.drop streampos.toNat).take len.toNat
    let src := (buf.drop bufpos.toNat).take len.toNat
    some (stream.take streampos.toNat ++ (List.range len.toNat).map (blend dst src volume)
      ++ stream.drop (streampos.toNat + len.toNat))
  else none

/-- Lines 128-137: call the chunk callback, if there is one.  Returns the heap
the callback leaves, the chunk it returns (`NULL` without a callback) and the
log entry. -/
def runCallback (hooks : Nat → Hook) (i : Nat) (a : Nat) (cur : mix_chunk) (h : Heap) :
    Heap × Ptr × List Event :=
  match cur.callback with
  | some f => ((hooks f (i : Int) a h).1, (hooks f (i : Int) a h).2, [Event.callback i a])
  | none => (h, none, [])

/-- Lines 152-158: free the buffer and the chunk object as flagged. -/
def releaseChunk (a : Nat) (cur : mix_chunk) (ps : Pass) : Pass :=
  let ps1 : Pass :=
    if cur.deallocate_buf ≠ 0 then
      let heap1 := writeChunk ps.heap a { cur with buf := [] }
      { ps with heap := heap1, trace := ps.trace ++ [Event.free_buf a] }
    else ps
  if cur.deallocate_me ≠ 0 then
    { ps1 with heap := freeChunk ps1.heap a, trace := ps1.trace ++ [Event.free_chunk a] }
  else ps1

/-- Lines 126-158: the current chunk `a` of channel `i` is exhausted; `buflen`
bytes of it were mixed.  The flag of the result says whether the `while` loop
goes on (it always does: the loop head decides). -/
def chunkEnd (hooks : Nat → Hook) (i : Nat) (ch : mix_channel) (a : Nat) (cur : mix_chunk)
    (buflen : Int) (st : Loop) : Outcome (Loop × Bool) :=
  let streampos := st.streampos + buflen
  let r := runCallback hooks i a cur st.ps.heap
  let ps0 : Pass := { st.ps with heap := r.1, trace := st.ps.trace ++ r.2.2 }
  match r.2.1 with
  | some newChunk =>
    let ps1 : Pass := { ps0 with channels := ps0.channels.set i { ch with chunk := some newChunk } }
    .ok ({ st with ps := ps1, streampos := streampos }, true)
  | none =>
    match readChunk ps0.heap a with
    | none => .undefined
    | some cur1 =>
      match cur1.nextChunk with
      | some nx =>
        match readChunk ps0.heap nx with
        | none => .undefined
        | some nc =>
          let chans := ps0.channels.set i { ch with chunk := some nx }
          let heap1 := writeChunk ps0.heap nx { nc with bufpos := 0 }
          let ps1 : Pass := { ps0 with channels := chans, heap := heap1 }
          .ok ({ st with ps := ps1, streampos := streampos }, true)
      | none =>
        match ps0.chunkstacks[i]? with
        | none => .undefined
        | some stk =>
          if stk.size > 0 then
            match voidpop stk with
            | none => .undefined
            | some (stk1, top) =>
              let chans := ps0.channels.set i { ch with chunk := top }
              let stks := ps0.chunkstacks.set i stk1
              let ps1 : Pass := { ps0 with channels := chans, chunkstacks := stks }
              .ok ({ st with ps := releaseChunk a cur1 ps1, streampos := streampos }, true)
          else
            let chans := ps0.channels.set i { ch with chunk := none }
            let ps1 : Pass := { ps0 with channels := chans }
            .ok ({ st with ps := releaseChunk a cur1 ps1, streampos := streampos }, true)

/-- Lines 90-158: one run of the body of the inner `while` loop for channel
`i`.  The flag is `false` when the body leaves the loop with `break`. -/
def loopBody (hooks : Nat → Hook) (blend : Blend) (i : Nat) (st : Loop) : Outcome (Loop × Bool) :=
  match st.ps.channels[i]? with
  | none => .undefined
  | some ch =>
    match ch.chunk with
    | none => .ok (st, false)
    | some a =>
      match readChunk st.ps.heap a with
      | none => .undefined
      | some cur =>
        let volume := ch.volume
        let buflen := cur.buflen - cur.bufpos
        if buflen > st.bytestogo then
          match SDL_MixAudioFormat blend st.ps.stream st.streampos cur.buf cur.bufpos
              st.bytestogo volume with
          | none => .undefined
          | some stream1 =>
            let log := st.ps.trace ++ [Event.mix i st.streampos a cur.bufpos st.bytestogo volume]
            let heap1 := writeChunk st.ps.heap a { cur with bufpos := cur.bufpos + st.bytestogo }
            let ps1 : Pass := { st.ps with stream := stream1, trace := log, heap := heap1 }
            .ok ({ st with ps := ps1, bytestogo := 0 }, false)
        else if buflen = st.bytestogo then
          match SDL_MixAudioFormat blend st.ps.stream st.streampos cur.buf cur.bufpos
              st.bytestogo volume with
          | none => .undefined
          | some stream1 =>
            let log := st.ps.trace ++ [Event.mix i st.streampos a cur.bufpos st.bytestogo volume]
            let ps1 : Pass := { st.ps with stream := stream1, trace := log }
            chunkEnd hooks i ch a cur buflen { st with ps := ps1, bytestogo := 0 }
        else
          match SDL_MixAudioFormat blend st.ps.stream st.streampos cur.buf cur.bufpos
              buflen volume with
          | none => .undefined
          | some stream1 =>
            let log := st.ps.trace ++ [Event.mix i st.streampos a cur.bufpos buflen volume]
            let ps1 : Pass := { st.ps with stream := stream1, trace := log }
            chunkEnd hooks i ch a cur buflen
              { st with ps := ps1, bytestogo := st.bytestogo - buflen }

/-- Lines 89-159: the inner loop `while (bytestogo > 0)`, with fuel. -/
def whileLoop (hooks : Nat → Hook) (blend : Blend) (fuel : Nat) (i : Nat) (st : Loop) :
    Outcome Loop :=
  if st.bytestogo > 0 then
    match fuel with
    | 0 => .outOfFuel
    | fuel1 + 1 =>
      match loopBody hooks blend i st with
      | .ok (st1, true) => whileLoop hooks blend fuel1 i st1
      | .ok (st1, false) => .ok st1
      | .undefined => .undefined
      | .outOfFuel => .outOfFuel
  else .ok st

/-- Lines 77-159: the body of the outer `for` loop, the part of a mixing pass
that handles channel `i`. -/
def mixChannel (hooks : Nat → Hook) (blend : Blend) (fuel : Nat) (len : Int) (i : Nat)
    (ps : Pass) : Outcome Pass :=
  match ps.channels[i]? with
  | none => .undefined
  | some ch =>
    if ch.playing = 0 then .ok ps
    else
      match whileLoop hooks blend fuel i ⟨ps, 0, len⟩ with
      | .ok st => .ok st.ps
      | .undefined => .undefined
      | .outOfFuel => .outOfFuel

/-- Lines 76-160: the outer loop `for (i = 0; i < NUM_CHANNELS; i++)`, with `n`
channels still to go. -/
def forChannels (hooks : Nat → Hook) (blend : Blend) (fuel : Nat) (len : Int) :
    Nat → Nat → Pass → Outcome Pass
  | 0, _, ps => .ok ps
  | n + 1, i, ps =>
    match mixChannel hooks blend fuel len i ps with
    | .ok ps1 => forChannels hooks blend fuel len n (i + 1) ps1
    | .undefined => .undefined
    | .outOfFuel => .outOfFuel

/-- The function `MixCallback(UNUSED, stream, len)`: silence the stream of `len` bytes, then
mix every channel into it.  `fuel` bounds the inner loop of each channel. -/
def MixCallback (hooks : Nat → Hook) (blend : Blend) (fuel : Nat) (len : Int) (m : Mixer) :
    Outcome Pass :=
  if len < 0 then .undefined
  else
    forChannels hooks blend fuel len NUM_CHANNELS 0
      { heap := m.heap, channels := m.channels, chunkstacks := m.chunkstacks,
        stream := List.replicate len.toNat 0, trace := [] }

/-- The mixer a pass leaves behind. -/
def Pass.mixer (ps : Pass) : Mixer :=
  { heap := ps.heap, channels := ps.channels, chunkstacks := ps.chunkstacks }

/-! ## Initialisation (`org_OpenAudio`, lines 216-231) -/

/-- The channel table and the stacks as the loop of `org_OpenAudio` sets them
up: no chunk, full volume, not reserved, paused, empty stack. -/
def initialMixer (heap : Heap) : Mixer :=
  { heap := heap,
    channels := List.replicate NUM_CHANNELS
      { chunk := none, volume := 128, reserved := 0, playing := 0 },
    chunkstacks := List.replicate NUM_CHANNELS { items := [] } }

/-! ## Channel management (`org_mixer.c`, lines 267-340) -/

/-- The entry `channels[channelid]` with its index, `none` outside the array. -/
def channelAt (m : Mixer) (channelid : Int) : Option (Nat × mix_channel) :=
  match chanIndex channelid with
  | none => none
  | some i =>
    match m.channels[i]? with
    | none => none
    | some ch => some (i, ch)

/-- The loop of `FindFreeChannel` from index `i`, with `n` channels to go. -/
def FindFreeChannelFrom (m : Mixer) : Nat → Nat → Outcome Int
  | 0, _ => .ok (NUM_CHANNELS : Int)
  | n + 1, i =>
    match m.channels[i]? with
    | none => .undefined
    | some ch => if ch.reserved = 0 then .ok (i : Int) else FindFreeChannelFrom m n (i + 1)

/-- The function `FindFreeChannel()` (lines 267-285). -/
def FindFreeChannel (m : Mixer) : Outcome Int := FindFreeChannelFrom m NUM_CHANNELS 0

/-- The loop of `ReserveAnyChannel` from index `i`, with `n` channels to go.
The local `ret` holds 0 after `sem_wait` and becomes `i` when channel `i` is
claimed; the function returns only when `ret` is non-zero. -/
def ReserveAnyChannelFrom (rc : RetCodes) : Nat → Nat → Mixer → Outcome (Mixer × Int)
  | 0, _, m => .ok (m, rc.rSORRY)
  | n + 1, i, m =>
    match m.channels[i]? with
    | none => .undefined
    | some ch =>
      if ch.reserved = 0 then
        let m1 : Mixer := { m with channels := m.channels.set i { ch with reserved := 1 } }
        let ret : Int := (i : Int)
        if ret ≠ 0 then .ok (m1, ret) else ReserveAnyChannelFrom rc n (i + 1) m1
      else ReserveAnyChannelFrom rc n (i + 1) m

/-- The static function `ReserveAnyChannel()` (lines 287-307). -/
def ReserveAnyChannel (rc : RetCodes) (m : Mixer) : Outcome (Mixer × Int) :=
  ReserveAnyChannelFrom rc NUM_CHANNELS 0 m

/-- The function `ReserveChannel(channelid)` (lines 308-328). -/
def ReserveChannel (rc : RetCodes) (channelid : Int) (m : Mixer) : Outcome (Mixer × Int) :=
  if channelid ≥ (NUM_CHANNELS : Int) then .ok (m, rc.rBADARG)
  else
    match channelAt m channelid with
    | none => .undefined
    | some (i, ch) =>
      if ch.reserved ≠ 0 then .ok (m, rc.rSORRY)
      else .ok ({ m with channels := m.channels.set i { ch with reserved := 1 } }, channelid)

/-- The function `FreeChannel(channelid)` (lines 330-340). -/
def FreeChannel (channelid : Int) (m : Mixer) : Outcome Mixer :=
  match channelAt m channelid with
  | none => .undefined
  | some (i, ch) => .ok { m with channels := m.channels.set i { ch with reserved := 1 } }

/-! ## Sound-playing functions (`org_mixer.c`, lines 351-466) -/

/-- The function `PlayChunk(channelid, chunk)` (lines 351-366); returns the old
chunk. -/
def PlayChunk (channelid : Int) (chunk : Ptr) (m : Mixer) : Outcome (Mixer × Ptr) :=
  match channelAt m channelid with
  | none => .undefined
  | some (i, ch) =>
    match chunk with
    | none => .undefined
    | some a =>
      match readChunk m.heap a with
      | none => .undefined
      | some c =>
        let oldchunk := ch.chunk
        let heap1 := writeChunk m.heap a { c with bufpos := 0 }
        let chans := m.channels.set i { ch with chunk := chunk, playing := 1 }
        .ok ({ m with heap := heap1, channels := chans }, oldchunk)

/-- The function `SetChunk(channelid, chunk)` (lines 367-381); returns the old
chunk. -/
def SetChunk (channelid : Int) (chunk : Ptr) (m : Mixer) : Outcome (Mixer × Ptr) :=
  match channelAt m channelid with
  | none => .undefined
  | some (i, ch) =>
    let oldchunk := ch.chunk
    let chans := m.channels.set i { ch with chunk := chunk, playing := 1 }
    .ok ({ m with channels := chans }, oldchunk)

/-- The function `InterruptChunk(channelid, chunk)` (lines 382-396). -/
def InterruptChunk (rc : RetCodes) (channelid : Int) (chunk : Ptr) (m : Mixer) :
    Outcome (Mixer × Int) :=
  match channelAt m channelid with
  | none => .undefined
  | some (i, ch) =>
    match m.chunkstacks[i]? with
    | none => .undefined
    | some stk =>
      let oldchunk := ch.chunk
      let chans := m.channels.set i { ch with chunk := chunk }
      let stks := m.chunkstacks.set i (voidpush stk oldchunk)
      .ok ({ m with channels := chans, chunkstacks := stks }, rc.rSUCCESS)

/-- The function `PauseChannel(channelid)` (lines 398-410). -/
def PauseChannel (rc : RetCodes) (channelid : Int) (m : Mixer) : Outcome (Mixer × Int) :=
  match channelAt m channelid with
  | none => .undefined
  | some (i, ch) =>
    .ok ({ m with channels := m.channels.set i { ch with playing := 0 } }, rc.rSUCCESS)

/-- The function `PlayChannel(channelid)` (lines 412-424). -/
def PlayChannel (rc : RetCodes) (channelid : Int) (m : Mixer) : Outcome (Mixer × Int) :=
  match channelAt m channelid with
  | none => .undefined
  | some (i, ch) =>
    .ok ({ m with channels := m.channels.set i { ch with playing := 1 } }, rc.rSUCCESS)

/-- The function `SetVolume(channelid, volume)` (lines 426-442); the argument is
a `uint8_t`, the result the old volume as a `uint16_t`. -/
def SetVolume (channelid : Int) (volume : Nat) (m : Mixer) : Outcome (Mixer × Nat) :=
  let volume := volume % 256
  let volume := if volume > MAX_VOL then MAX_VOL else volume
  match channelAt m channelid with
  | none => .undefined
  | some (i, ch) =>
    let tmpvol := ch.volume % 65536
    .ok ({ m with channels := m.channels.set i { ch with volume := volume } }, tmpvol)

/-- The function `StopChannel(channelid)` (lines 449-466); returns the old
chunk. -/
def StopChannel (channelid : Int) (m : Mixer) : Outcome (Mixer × Ptr) :=
  match channelAt m channelid with
  | none => .undefined
  | some (i, ch) =>
    let oldchunk := ch.chunk
    .ok ({ m with channels := m.channels.set i { ch with chunk := none, playing := 0 } }, oldchunk)

/-! ## Debug functions (`org_mixer.c`, lines 516-534) -/

/-- The function `GetChannelDetails(chanNum, dest)` (lines 516-524): the call
`memcpy(channels + chanNum, dest, sizeof(mix_channel))`.  The result is the
mixer and the record `*dest` after the call. -/
def GetChannelDetails (chanNum : Int) (dest : mix_channel) (m : Mixer) :
    Outcome (Mixer × mix_channel) :=
  match channelAt m chanNum with
  | none => .undefined
  | some (i, _) => .ok ({ m with channels := m.channels.set i dest }, dest)

/-- The function `GetNumStackedChunks(channel)` (lines 529-531). -/
def GetNumStackedChunks (channel : Int) (m : Mixer) : Outcome Int :=
  match chanIndex channel with
  | none => .undefined
  | some i =>
    match m.chunkstacks[i]? with
    | none => .undefined
    | some stk => .ok stk.size

/-- The function `GetTopChunk(channel)` (lines 532-534). -/
def GetTopChunk (channel : Int) (m : Mixer) : Outcome Ptr :=
  match chanIndex channel with
  | none => .undefined
  | some i =>
    match m.chunkstacks[i]? with
    | none => .undefined
    | some stk => .ok stk.top

/-! ## What the part of a pass for channel `j` may touch -/

/-- Relation between the pass state before and after work on channel `j`:
the other channels and the other stacks are as before, channel `j` keeps its
volume, reserved and playing fields, the stream keeps its length, and every
new log entry is a mix or callback for channel `j` or a `free`. -/
def passFrame (j : Nat) (ps ps1 : Pass) : Prop :=
  (∀ k, k ≠ j → ps1.channels[k]? = ps.channels[k]?) ∧
  (∀ k, k ≠ j → ps1.chunkstacks[k]? = ps.chunkstacks[k]?) ∧
  (ps1.channels[j]?.map (fun c => (c.volume, c.reserved, c.playing)) =
    ps.channels[j]?.map (fun c => (c.volume, c.reserved, c.playing))) ∧
  ps1.stream.length = ps.stream.length ∧
  (∀ e ∈ ps1.trace, e ∈ ps.trace ∨ e.channel? = some j ∨ e.channel? = none)

/-! ## What a pass may do to the chunk objects -/

/-- The changes a mixing pass makes to the heap: the cursor of a chunk advances
by `n` bytes that the chunk still has beyond them (lines 108), a cursor is set
to 0 (line 142), a buffer or a chunk object is freed (lines 153-158), a chunk
callback runs (line 130); and any sequence of these. -/
inductive HeapStep (hooks : Nat → Hook) : Heap → Heap → Prop where
  | same (h : Heap) : HeapStep hooks h h
  | advance (h : Heap) (a : Nat) (c : mix_chunk) (n : Int) :
      readChunk h a = some c → 0 < n → n < c.buflen - c.bufpos →
      HeapStep hooks h (writeChunk h a { c with bufpos := c.bufpos + n })
  | rewind (h : Heap) (a : Nat) (c : mix_chunk) :
      readChunk h a = some c → HeapStep hooks h (writeChunk h a { c with bufpos := 0 })
  | freeBuf (h : Heap) (a : Nat) (c : mix_chunk) :
      readChunk h a = some c → HeapStep hooks h (writeChunk h a { c with buf := [] })
  | freeObj (h : Heap) (a : Nat) : HeapStep hooks h (freeChunk h a)
  | hook (h : Heap) (f : Nat) (i : Int) (a : Nat) : HeapStep hooks h (hooks f i a h).1
  | seq (h1 h2 h3 : Heap) : HeapStep hooks h1 h2 → HeapStep hooks h2 h3 → HeapStep hooks h1 h3

/-- The cursor bound of section 3 for the chunks at the addresses in `S`:
`0 ≤ bufpos ≤ buflen`. -/
def cursorBound (S : Nat → Prop) (h : Heap) : Prop :=
  ∀ a c, S a → readChunk h a = some c → 0 ≤ c.bufpos ∧ c.bufpos ≤ c.buflen

/-- Every chunk has at least one byte beyond its cursor: `0 ≤ bufpos < buflen`. -/
def bytesLeft (h : Heap) : Prop :=
  ∀ a c, readChunk h a = some c → 0 ≤ c.bufpos ∧ c.bufpos < c.buflen

/-- A channel the mixer has nothing to do for: paused, or without a chunk. -/
def mix_channel.idle (ch : mix_channel) : Prop := ch.playing = 0 ∨ ch.chunk = none

instance (ch : mix_channel) : Decidable ch.idle := by
  unfold mix_channel.idle; exact inferInstance

/-- The heads of the inner loop for channel `i` that are reached from the loop
state `st0`: `st0` itself, and every state a run of the body leaves when it
ends without `break` and was entered with `bytestogo > 0`. -/
inductive LoopHead (hooks : Nat → Hook) (blend : Blend) (i : Nat) (st0 : Loop) :
    Loop → Prop where
  | start : LoopHead hooks blend i st0 st0
  | next (st st1 : Loop) :
      LoopHead hooks blend i st0 st → 0 < st.bytestogo →
      loopBody hooks blend i st = .ok (st1, true) → LoopHead hooks blend i st0 st1

/-! ## The order of section 4.2, step 3.b -/

/-- The next current chunk as the specification words it: the chunk the
completion hook returns, if there is a hook and it returns one; otherwise the
continuation, if present; otherwise the top of the interrupt stack, if the
stack is not empty; otherwise none. -/
def nextChunkBySpec (hookResult : Ptr) (continuation : Ptr) (stack : List Ptr) : Ptr :=
  match hookResult with
  | some r => some r
  | none =>
    match continuation with
    | some n => some n
    | none =>
      match stack with
      | top :: _ => top
      | [] => none

/-- The interrupt stack after the step, as the specification words it: the
stack is consulted, and its top entry popped, only when neither the hook nor
the continuation yields the next chunk; otherwise it is left as it is. -/
def nextStackBySpec (hookResult : Ptr) (continuation : Ptr) (stack : List Ptr) : List Ptr :=
  match hookResult with
  | some _ => stack
  | none =>
    match continuation with
    | some _ => stack
    | none => stack.tail

/-! ## Example data -/

/-- Return codes used in examples. -/
def exampleCodes : RetCodes :=
  { rSUCCESS := 0, rSORRY := -1, rBADARG := -2, rFAIL := -3, rSDLERR := -4 }

/-- A blend used in examples: add the source scaled by `volume / 128`,
saturating at 255. -/
def exampleBlend : Blend :=
  fun dst src volume k => min 255 (dst.getD k 0 + src.getD k 0 * volume / MAX_VOL)

/-- A table of hooks in which every hook returns `NULL` and touches nothing. -/
def noHooks : Nat → Hook := fun _ _ _ h => (h, none)

/-- The channel entry `org_OpenAudio` writes. -/
def freshChannel : mix_channel := { chunk := none, volume := 128, reserved := 0, playing := 0 }

/-- A chunk of `n` bytes of value 64 at cursor `pos`, caller-owned. -/
def exampleChunk (n : Nat) (pos : Int) (callback : Option Nat) (next : Ptr) : mix_chunk :=
  { buf := List.replicate n 64, buflen := n, deallocate_buf := 0, deallocate_me := 0,
    bufpos := pos, callback := callback, nextChunk := next }

/-- A mixer whose channel 0 is `ch0` above the stack `stk0`; the other channels
are fresh. -/
def exampleMixer (heap : Heap) (ch0 : mix_channel) (stk0 : voidstack) : Mixer :=
  { heap := heap,
    channels := ch0 :: List.replicate 15 freshChannel,
    chunkstacks := stk0 :: List.replicate 15 { items := [] } }

/-- The state of a pass of `len` bytes over `exampleMixer` when it reaches
channel 0. -/
def examplePass (heap : Heap) (ch0 : mix_channel) (stk0 : voidstack) (len : Nat) : Pass :=
  { heap := heap,
    channels := ch0 :: List.replicate 15 freshChannel,
    chunkstacks := stk0 :: List.replicate 15 { items := [] },
    stream := List.replicate len 0,
    trace := [] }

/-- A table of hooks in which every hook returns the chunk `p` and touches
nothing. -/
def hookReturns (p : Ptr) : Nat → Hook := fun _ _ _ h => (h, p)

/-- A chunk of `n` bytes of value 64 at cursor 0 that the mixer is to free:
both `deallocate_buf` and `deallocate_me` are set. -/
def ownedChunk (n : Nat) (callback : Option Nat) (next : Ptr) : mix_chunk :=
  { buf := List.replicate n 64, buflen := n, deallocate_buf := 1, deallocate_me := 1,
    bufpos := 0, callback := callback, nextChunk := next }

/-- The state of a pass of 8 bytes when it reaches channel 0, which plays
chunk 0 (3 bytes) whose continuation is chunk 1 (9 bytes). -/
def exampleChain : Pass :=
  examplePass [some (exampleChunk 3 0 none (some 1)), some (exampleChunk 9 0 none none)]
    { chunk := some 0, volume := 128, reserved := 1, playing := 1 } ⟨[]⟩ 8

/-- The second head of the inner loop over `exampleChain`: chunk 0 is mixed,
chunk 1 is current, 5 bytes are to go. -/
def exampleChainHead : Loop :=
  { ps := { heap := [some (exampleChunk 3 0 none (some 1)), some (exampleChunk 9 0 none none)],
            channels := { chunk := some 1, volume := 128, reserved := 1, playing := 1 } ::
              List.replicate 15 freshChannel,
            chunkstacks := List.replicate 16 { items := [] },
            stream := [64, 64, 64, 0, 0, 0, 0, 0],
            trace := [Event.mix 0 0 0 0 3 128] },
    streampos := 3, bytestogo := 5 }

/-- A mixer with three chunks: channel 0 is paused at cursor 2 of chunk 0 above
a stack that holds chunk 2, channel 1 plays chunk 1 from its start, the other
channels are fresh. -/
def exampleTwoChannels : Mixer :=
  { heap := [some (exampleChunk 9 2 none none), some (exampleChunk 9 0 none none),
             some (exampleChunk 3 0 none none)],
    channels := { chunk := some 0, volume := 128, reserved := 1, playing := 0 } ::
      { chunk := some 1, volume := 128, reserved := 1, playing := 1 } ::
      List.replicate 14 freshChannel,
    chunkstacks := { items := [some 2] } :: List.replicate 15 { items := [] } }

/-! ## Basic facts -/

theorem initialMixer_wf (heap : Heap) : (initialMixer heap).wf := by
  simp [Mixer.wf, initialMixer]

theorem chanIndex_of_valid {channelid : Int} (h0 : 0 ≤ channelid)
    (h1 : channelid < (NUM_CHANNELS : Int)) : chanIndex channelid = some channelid.toNat := by
  simp [chanIndex, h0, h1]

theorem toNat_lt_of_valid {channelid : Int} (h0 : 0 ≤ channelid)
    (h1 : channelid < (NUM_CHANNELS : Int)) : channelid.toNat < NUM_CHANNELS := by
  omega

theorem channelAt_of_valid {m : Mixer} {channelid : Int} (hwf : m.wf) (h0 : 0 ≤ channelid)
    (h1 : channelid < (NUM_CHANNELS : Int)) :
    ∃ ch, m.channels[channelid.toNat]? = some ch ∧
      channelAt m channelid = some (channelid.toNat, ch) := by
  have hlt : channelid.toNat < m.channels.length := by
    rw [hwf.1]; exact toNat_lt_of_valid h0 h1
  refine ⟨m.channels[channelid.toNat], List.getElem?_eq_getElem hlt, ?_⟩
  simp [channelAt, chanIndex_of_valid h0 h1, List.getElem?_eq_getElem hlt]

theorem channelAt_of_getElem {m : Mixer} {channelid : Int} {ch : mix_channel}
    (h0 : 0 ≤ channelid) (h1 : channelid < (NUM_CHANNELS : Int))
    (hch : m.channels[channelid.toNat]? = some ch) :
    channelAt m channelid = some (channelid.toNat, ch) := by
  simp [channelAt, chanIndex_of_valid h0 h1, hch]

theorem stackAt_of_valid {m : Mixer} {channelid : Int} (hwf : m.wf) (h0 : 0 ≤ channelid)
    (h1 : channelid < (NUM_CHANNELS : Int)) :
    ∃ stk, m.chunkstacks[channelid.toNat]? = some stk := by
  have hlt : channelid.toNat < m.chunkstacks.length := by
    rw [hwf.2]; exact toNat_lt_of_valid h0 h1
  exact ⟨m.chunkstacks[channelid.toNat], List.getElem?_eq_getElem hlt⟩

/-! ## Facts about the heap and the stream -/

theorem lt_length_of_getElem? {α : Type} {l : List α} {k : Nat} {x : α}
    (h : l[k]? = some x) : k < l.length := by
  rcases Nat.lt_or_ge k l.length with hlt | hge
  · exact hlt
  · rw [List.getElem?_eq_none hge] at h
    exact Option.noConfusion h

theorem lt_length_of_readChunk {h : Heap} {a : Nat} {c : mix_chunk}
    (hr : readChunk h a = some c) : a < h.length := by
  rcases Nat.lt_or_ge a h.length with hlt | hge
  · exact hlt
  · unfold readChunk at hr
    rw [List.getElem?_eq_none hge] at hr
    exact Option.noConfusion hr

theorem readChunk_writeChunk_same {h : Heap} {a : Nat} (c : mix_chunk) (hlt : a < h.length) :
    readChunk (writeChunk h a c) a = some c := by
  simp [readChunk, writeChunk, hlt]

theorem readChunk_writeChunk_ne {h : Heap} {a b : Nat} (c : mix_chunk) (hne : a ≠ b) :
    readChunk (writeChunk h a c) b = readChunk h b := by
  simp [readChunk, writeChunk, List.getElem?_set_ne hne]

theorem readChunk_freeChunk_ne {h : Heap} {a b : Nat} (hne : a ≠ b) :
    readChunk (freeChunk h a) b = readChunk h b := by
  simp [readChunk, freeChunk, List.getElem?_set_ne hne]

theorem SDL_MixAudioFormat_length {blend : Blend} {stream : List Nat} {streampos : Int}
    {buf : List Nat} {bufpos len : Int} {volume : Nat} {stream1 : List Nat}
    (h : SDL_MixAudioFormat blend stream streampos buf bufpos len volume = some stream1) :
    stream1.length = stream.length := by
  have hb : 0 ≤ len ∧ 0 ≤ streampos ∧ streampos + len ≤ stream.length ∧
      0 ≤ bufpos ∧ bufpos + len ≤ buf.length := by
    unfold SDL_MixAudioFormat at h
    by_contra hc
    rw [if_neg hc] at h
    exact Option.noConfusion h
  unfold SDL_MixAudioFormat at h
  rw [if_pos hb] at h
  injection h with h
  rw [← h]
  simp only [List.length_append, List.length_take, List.length_map, List.length_range,
    List.length_drop]
  omega

theorem SDL_MixAudioFormat_drop {blend : Blend} {stream : List Nat} {streampos : Int}
    {buf : List Nat} {bufpos len : Int} {volume : Nat} {stream1 : List Nat}
    (h : SDL_MixAudioFormat blend stream streampos buf bufpos len volume = some stream1) :
    stream1.drop (streampos + len).toNat = stream.drop (streampos + len).toNat := by
  have hb : 0 ≤ len ∧ 0 ≤ streampos ∧ streampos + len ≤ stream.length ∧
      0 ≤ bufpos ∧ bufpos + len ≤ buf.length := by
    unfold SDL_MixAudioFormat at h
    by_contra hc
    rw [if_neg hc] at h
    exact Option.noConfusion h
  unfold SDL_MixAudioFormat at h
  rw [if_pos hb] at h
  injection h with h
  rw [← h]
  have hsum : (streampos + len).toNat = streampos.toNat + len.toNat :=
    Int.toNat_add hb.2.1 hb.1
  rw [hsum]
  apply List.drop_left'
  simp only [List.length_append, List.length_take, List.length_map, List.length_range]
  omega

theorem SDL_MixAudioFormat_take {blend : Blend} {stream : List Nat} {streampos : Int}
    {buf : List Nat} {bufpos len : Int} {volume : Nat} {stream1 : List Nat}
    (h : SDL_MixAudioFormat blend stream streampos buf bufpos len volume = some stream1) :
    stream1.take streampos.toNat = stream.take streampos.toNat := by
  have hb : 0 ≤ len ∧ 0 ≤ streampos ∧ streampos + len ≤ stream.length ∧
      0 ≤ bufpos ∧ bufpos + len ≤ buf.length := by
    unfold SDL_MixAudioFormat at h
    by_contra hc
    rw [if_neg hc] at h
    exact Option.noConfusion h
  unfold SDL_MixAudioFormat at h
  rw [if_pos hb] at h
  injection h with h
  rw [← h, List.append_assoc]
  apply List.take_left'
  simp only [List.length_take]
  omega

/-- Two mixes that fill a stream back to back: every byte is a blend. -/
theorem two_blocks (blend : Blend) (bufA bufB : List Nat) (v : Nat) {stream : List Nat}
    {La Lb : Nat}
    (hlen : stream.length = La + Lb) (s1 : List Nat)
    (hs1 : s1 = List.take 0 stream ++
      (List.range La).map (blend ((stream.drop 0).take La) ((bufA.drop 0).take La) v) ++
      stream.drop (0 + La)) :
    List.take La s1 ++
        (List.range Lb).map (blend ((s1.drop La).take Lb) ((bufB.drop 0).take Lb) v) ++
        s1.drop (La + Lb) =
      (List.range La).map (blend (stream.take La) (bufA.take La) v) ++
        (List.range Lb).map (blend (stream.drop La) (bufB.take Lb) v) := by
  have hs2 : s1 = (List.range La).map (blend (stream.take La) (bufA.take La) v) ++
      stream.drop La := by
    rw [hs1]; simp
  have hX : ((List.range La).map (blend (stream.take La) (bufA.take La) v)).length = La := by
    simp
  have h1 : List.take La s1 = (List.range La).map (blend (stream.take La) (bufA.take La) v) := by
    rw [hs2]; exact List.take_left' hX
  have h2 : List.drop La s1 = stream.drop La := by
    rw [hs2]; exact List.drop_left' hX
  have h3 : (stream.drop La).take Lb = stream.drop La := by
    apply List.take_of_length_le; simp; omega
  have h4 : s1.drop (La + Lb) = [] := by
    apply List.drop_of_length_le; rw [hs2]; simp; omega
  rw [h1, h2, h3, h4]
  simp

/-! ## Facts about `releaseChunk` -/

@[simp] theorem releaseChunk_channels (a : Nat) (cur : mix_chunk) (ps : Pass) :
    (releaseChunk a cur ps).channels = ps.channels := by
  unfold releaseChunk
  by_cases h1 : cur.deallocate_buf = 0 <;> by_cases h2 : cur.deallocate_me = 0 <;>
    simp [h1, h2]

@[simp] theorem releaseChunk_chunkstacks (a : Nat) (cur : mix_chunk) (ps : Pass) :
    (releaseChunk a cur ps).chunkstacks = ps.chunkstacks := by
  unfold releaseChunk
  by_cases h1 : cur.deallocate_buf = 0 <;> by_cases h2 : cur.deallocate_me = 0 <;>
    simp [h1, h2]

@[simp] theorem releaseChunk_stream (a : Nat) (cur : mix_chunk) (ps : Pass) :
    (releaseChunk a cur ps).stream = ps.stream := by
  unfold releaseChunk
  by_cases h1 : cur.deallocate_buf = 0 <;> by_cases h2 : cur.deallocate_me = 0 <;>
    simp [h1, h2]

theorem releaseChunk_trace (a : Nat) (cur : mix_chunk) (ps : Pass) :
    (releaseChunk a cur ps).trace = ps.trace ++
      ((if cur.deallocate_buf ≠ 0 then [Event.free_buf a] else []) ++
        (if cur.deallocate_me ≠ 0 then [Event.free_chunk a] else [])) := by
  unfold releaseChunk
  by_cases h1 : cur.deallocate_buf = 0 <;> by_cases h2 : cur.deallocate_me = 0 <;>
    simp [h1, h2]

@[simp] theorem releaseChunk_trace_mixes (a : Nat) (cur : mix_chunk) (ps : Pass) :
    (releaseChunk a cur ps).trace.filter Event.isMix = ps.trace.filter Event.isMix := by
  rw [releaseChunk_trace]
  by_cases h1 : cur.deallocate_buf = 0 <;> by_cases h2 : cur.deallocate_me = 0 <;>
    simp [h1, h2, List.filter_append, Event.isMix]

theorem SDL_MixAudioFormat_eq (blend : Blend) (volume : Nat) {stream : List Nat}
    {streampos : Int} {buf : List Nat} {bufpos len : Int}
    (h : 0 ≤ len ∧ 0 ≤ streampos ∧ streampos + len ≤ stream.length ∧
      0 ≤ bufpos ∧ bufpos + len ≤ buf.length) :
    SDL_MixAudioFormat blend stream streampos buf bufpos len volume =
      some (stream.take streampos.toNat ++
        (List.range len.toNat).map
          (blend ((stream.drop streampos.toNat).take len.toNat)
            ((buf.drop bufpos.toNat).take len.toNat) volume)
        ++ stream.drop (streampos.toNat + len.toNat)) := by
  unfold SDL_MixAudioFormat
  rw [if_pos h]

theorem SDL_MixAudioFormat_bounds {blend : Blend} {stream : List Nat} {streampos : Int}
    {buf : List Nat} {bufpos len : Int} {volume : Nat} {stream1 : List Nat}
    (h : SDL_MixAudioFormat blend stream streampos buf bufpos len volume = some stream1) :
    0 ≤ len ∧ 0 ≤ streampos ∧ streampos + len ≤ stream.length ∧
      0 ≤ bufpos ∧ bufpos + len ≤ buf.length := by
  unfold SDL_MixAudioFormat at h
  by_contra hc
  rw [if_neg hc] at h
  exact Option.noConfusion h

/-- The branch `buflen > bytestogo` (lines 104-110). -/
theorem loopBody_partial (hooks : Nat → Hook) (blend : Blend) (i : Nat) (st : Loop)
    {ch : mix_channel} {a : Nat} {cur : mix_chunk} {stream1 : List Nat}
    (hch : st.ps.channels[i]? = some ch) (hchunk : ch.chunk = some a)
    (hcur : readChunk st.ps.heap a = some cur)
    (hgt : cur.buflen - cur.bufpos > st.bytestogo)
    (hmix : SDL_MixAudioFormat blend st.ps.stream st.streampos cur.buf cur.bufpos
      st.bytestogo ch.volume = some stream1) :
    loopBody hooks blend i st =
      .ok ({ ps := { st.ps with
                      stream := stream1,
                      trace := st.ps.trace ++
                        [Event.mix i st.streampos a cur.bufpos st.bytestogo ch.volume],
                      heap := writeChunk st.ps.heap a
                        { cur with bufpos := cur.bufpos + st.bytestogo } },
             streampos := st.streampos, bytestogo := 0 }, false) := by
  unfold loopBody
  simp only [hch, hchunk, hcur, hgt, if_true, hmix]

/-- The branches `buflen == bytestogo` and `buflen < bytestogo` (lines 111-126):
what is left of the chunk is mixed and the chunk is exhausted. -/
theorem loopBody_exhaust {hooks : Nat → Hook} {blend : Blend} {i : Nat} {st : Loop}
    {ch : mix_channel} {a : Nat} {cur : mix_chunk} {stream1 : List Nat}
    (hch : st.ps.channels[i]? = some ch) (hchunk : ch.chunk = some a)
    (hcur : readChunk st.ps.heap a = some cur)
    (hex : cur.buflen - cur.bufpos ≤ st.bytestogo)
    (hmix : SDL_MixAudioFormat blend st.ps.stream st.streampos cur.buf cur.bufpos
      (cur.buflen - cur.bufpos) ch.volume = some stream1) :
    loopBody hooks blend i st =
      chunkEnd hooks i ch a cur (cur.buflen - cur.bufpos)
        { ps := { st.ps with
                    stream := stream1,
                    trace := st.ps.trace ++
                      [Event.mix i st.streampos a cur.bufpos (cur.buflen - cur.bufpos)
                        ch.volume] },
          streampos := st.streampos,
          bytestogo := st.bytestogo - (cur.buflen - cur.bufpos) } := by
  unfold loopBody
  simp only [hch, hchunk, hcur]
  have hng : ¬ (cur.buflen - cur.bufpos > st.bytestogo) := by omega
  rw [if_neg hng]
  by_cases heq : cur.buflen - cur.bufpos = st.bytestogo
  · rw [if_pos heq, ← heq, hmix]
    simp
  · rw [if_neg heq, hmix]

/-- A chunk without callback and continuation is exhausted on a channel whose
stack is empty: the channel goes idle and the chunk is released. -/
theorem loopBody_exhaust_idle (hooks : Nat → Hook) (blend : Blend) (i : Nat) (st : Loop)
    {ch : mix_channel} {a : Nat} {cur : mix_chunk} {stream1 : List Nat}
    (hch : st.ps.channels[i]? = some ch) (hchunk : ch.chunk = some a)
    (hcur : readChunk st.ps.heap a = some cur)
    (hex : cur.buflen - cur.bufpos ≤ st.bytestogo)
    (hmix : SDL_MixAudioFormat blend st.ps.stream st.streampos cur.buf cur.bufpos
      (cur.buflen - cur.bufpos) ch.volume = some stream1)
    (hcb : cur.callback = none) (hnx : cur.nextChunk = none)
    (hstk : st.ps.chunkstacks[i]? = some ⟨[]⟩) :
    loopBody hooks blend i st =
      .ok ({ ps := releaseChunk a cur
                    { heap := st.ps.heap,
                      channels := st.ps.channels.set i { ch with chunk := none },
                      chunkstacks := st.ps.chunkstacks,
                      stream := stream1,
                      trace := st.ps.trace ++
                        [Event.mix i st.streampos a cur.bufpos (cur.buflen - cur.bufpos)
                          ch.volume] },
             streampos := st.streampos + (cur.buflen - cur.bufpos),
             bytestogo := st.bytestogo - (cur.buflen - cur.bufpos) }, true) := by
  rw [loopBody_exhaust hch hchunk hcur hex hmix]
  unfold chunkEnd
  simp [runCallback, hcb, hcur, hnx, hstk, voidstack.size]

/-- A chunk without callback is exhausted and has a continuation: the
continuation becomes current with its cursor set to 0; nothing is released. -/
theorem loopBody_exhaust_next (hooks : Nat → Hook) (blend : Blend) (i : Nat) (st : Loop)
    {ch : mix_channel} {a nx : Nat} {cur nc : mix_chunk} {stream1 : List Nat}
    (hch : st.ps.channels[i]? = some ch) (hchunk : ch.chunk = some a)
    (hcur : readChunk st.ps.heap a = some cur)
    (hex : cur.buflen - cur.bufpos ≤ st.bytestogo)
    (hmix : SDL_MixAudioFormat blend st.ps.stream st.streampos cur.buf cur.bufpos
      (cur.buflen - cur.bufpos) ch.volume = some stream1)
    (hcb : cur.callback = none) (hnx : cur.nextChunk = some nx)
    (hnc : readChunk st.ps.heap nx = some nc) :
    loopBody hooks blend i st =
      .ok ({ ps := { heap := writeChunk st.ps.heap nx { nc with bufpos := 0 },
                     channels := st.ps.channels.set i { ch with chunk := some nx },
                     chunkstacks := st.ps.chunkstacks,
                     stream := stream1,
                     trace := st.ps.trace ++
                       [Event.mix i st.streampos a cur.bufpos (cur.buflen - cur.bufpos)
                         ch.volume] },
             streampos := st.streampos + (cur.buflen - cur.bufpos),
             bytestogo := st.bytestogo - (cur.buflen - cur.bufpos) }, true) := by
  rw [loopBody_exhaust hch hchunk hcur hex hmix]
  unfold chunkEnd
  simp [runCallback, hcb, hcur, hnx, hnc]

/-- A channel without a current chunk: the body leaves the loop (lines 91-94). -/
theorem loopBody_null (ch : mix_channel) {hooks : Nat → Hook} {blend : Blend} {i : Nat}
    {st : Loop} (hch : st.ps.channels[i]? = some ch) (hchunk : ch.chunk = none) :
    loopBody hooks blend i st = .ok (st, false) := by
  unfold loopBody
  simp [hch, hchunk]

theorem whileLoop_step (fuel : Nat) (st : Loop) {hooks : Nat → Hook} {blend : Blend} {i : Nat}
    {st1 : Loop}
    (hgo : 0 < st.bytestogo) (hb : loopBody hooks blend i st = .ok (st1, true)) :
    whileLoop hooks blend (fuel + 1) i st = whileLoop hooks blend fuel i st1 := by
  rw [whileLoop, if_pos hgo, hb]

theorem whileLoop_break (fuel : Nat) (st : Loop) {hooks : Nat → Hook} {blend : Blend} {i : Nat}
    {st1 : Loop}
    (hgo : 0 < st.bytestogo) (hb : loopBody hooks blend i st = .ok (st1, false)) :
    whileLoop hooks blend (fuel + 1) i st = .ok st1 := by
  rw [whileLoop, if_pos hgo, hb]

theorem whileLoop_done {hooks : Nat → Hook} {blend : Blend} {fuel i : Nat} {st : Loop}
    (hgo : ¬ 0 < st.bytestogo) : whileLoop hooks blend fuel i st = .ok st := by
  cases fuel <;> rw [whileLoop, if_neg hgo]

/-- The pass for a playing channel is its inner loop from stream position 0. -/
theorem mixChannel_playing {hooks : Nat → Hook} {blend : Blend} {fuel i : Nat} {len : Int}
    {ps : Pass} {ch : mix_channel} {st : Loop}
    (hch : ps.channels[i]? = some ch) (hplay : ch.playing ≠ 0)
    (hloop : whileLoop hooks blend fuel i ⟨ps, 0, len⟩ = .ok st) :
    mixChannel hooks blend fuel len i ps = .ok st.ps := by
  unfold mixChannel
  simp only [hch, hplay, if_false, hloop]

/-- A pass that asks for fewer bytes than the current chunk has left. -/
theorem mixChannel_consume (fuel : Nat) {hooks : Nat → Hook} {blend : Blend} {i : Nat} {ps : Pass}
    {B : Int} {ch : mix_channel} {a : Nat} {cur : mix_chunk} {stream1 : List Nat}
    (hch : ps.channels[i]? = some ch) (hplay : ch.playing ≠ 0) (hchunk : ch.chunk = some a)
    (hcur : readChunk ps.heap a = some cur)
    (hB0 : 0 < B) (hBL : B < cur.buflen - cur.bufpos)
    (hmix : SDL_MixAudioFormat blend ps.stream 0 cur.buf cur.bufpos B ch.volume =
      some stream1) :
    mixChannel hooks blend (fuel + 1) B i ps =
      .ok { heap := writeChunk ps.heap a { cur with bufpos := cur.bufpos + B },
            channels := ps.channels,
            chunkstacks := ps.chunkstacks,
            stream := stream1,
            trace := ps.trace ++ [Event.mix i 0 a cur.bufpos B ch.volume] } := by
  have hbody := loopBody_partial hooks blend i ⟨ps, 0, B⟩ hch hchunk hcur hBL hmix
  have hloop := whileLoop_break fuel ⟨ps, 0, B⟩ hB0 hbody
  exact mixChannel_playing hch hplay hloop

/-- A pass that asks for at least what the current chunk has left, when the
chunk has no callback and no continuation and the stack is empty. -/
theorem mixChannel_finish {hooks : Nat → Hook} {blend : Blend} {fuel i : Nat} {ps : Pass}
    {B : Int} {ch : mix_channel} {a : Nat} {cur : mix_chunk} {stream1 : List Nat}
    (hch : ps.channels[i]? = some ch) (hplay : ch.playing ≠ 0) (hchunk : ch.chunk = some a)
    (hcur : readChunk ps.heap a = some cur)
    (hB0 : 0 < B) (hex : cur.buflen - cur.bufpos ≤ B)
    (hmix : SDL_MixAudioFormat blend ps.stream 0 cur.buf cur.bufpos
      (cur.buflen - cur.bufpos) ch.volume = some stream1)
    (hcb : cur.callback = none) (hnx : cur.nextChunk = none)
    (hstk : ps.chunkstacks[i]? = some ⟨[]⟩) :
    mixChannel hooks blend (fuel + 2) B i ps =
      .ok (releaseChunk a cur
            { heap := ps.heap,
              channels := ps.channels.set i { ch with chunk := none },
              chunkstacks := ps.chunkstacks,
              stream := stream1,
              trace := ps.trace ++
                [Event.mix i 0 a cur.bufpos (cur.buflen - cur.bufpos) ch.volume] }) := by
  have hbody := loopBody_exhaust_idle hooks blend i ⟨ps, 0, B⟩ hch hchunk hcur hex hmix hcb hnx hstk
  have hstep := whileLoop_step (fuel + 1) ⟨ps, 0, B⟩ hB0 hbody
  have hlt : i < ps.channels.length := lt_length_of_getElem? hch
  have hloop : whileLoop hooks blend (fuel + 2) i ⟨ps, 0, B⟩ =
      .ok ⟨releaseChunk a cur
            { heap := ps.heap,
              channels := ps.channels.set i { ch with chunk := none },
              chunkstacks := ps.chunkstacks,
              stream := stream1,
              trace := ps.trace ++
                [Event.mix i 0 a cur.bufpos (cur.buflen - cur.bufpos) ch.volume] },
          0 + (cur.buflen - cur.bufpos), B - (cur.buflen - cur.bufpos)⟩ := by
    rw [hstep]
    by_cases hgo : 0 < B - (cur.buflen - cur.bufpos)
    · apply whileLoop_break _ _ hgo
      apply loopBody_null { ch with chunk := none }
      · simp [hlt]
      · rfl
    · exact whileLoop_done hgo
  exact mixChannel_playing hch hplay hloop

/-! ## The frame of a pass -/

theorem passFrame_refl (j : Nat) (ps : Pass) : passFrame j ps ps :=
  ⟨fun _ _ => rfl, fun _ _ => rfl, rfl, rfl, fun _ he => Or.inl he⟩

theorem passFrame_trans {j : Nat} {ps ps1 ps2 : Pass} (h1 : passFrame j ps ps1)
    (h2 : passFrame j ps1 ps2) : passFrame j ps ps2 := by
  obtain ⟨a1, b1, c1, d1, e1⟩ := h1
  obtain ⟨a2, b2, c2, d2, e2⟩ := h2
  refine ⟨fun k hk => (a2 k hk).trans (a1 k hk), fun k hk => (b2 k hk).trans (b1 k hk),
    c2.trans c1, d2.trans d1, fun e he => ?_⟩
  rcases e2 e he with h | h
  · exact e1 e h
  · exact Or.inr h

theorem mem_releaseChunk_trace {a : Nat} {cur : mix_chunk} {ps : Pass} {e : Event}
    (he : e ∈ (releaseChunk a cur ps).trace) : e ∈ ps.trace ∨ e.channel? = none := by
  rw [releaseChunk_trace, List.mem_append, List.mem_append] at he
  rcases he with h | h | h
  · exact Or.inl h
  · right
    by_cases h1 : cur.deallocate_buf = 0
    · simp [h1] at h
    · simp [h1] at h
      rw [h]; rfl
  · right
    by_cases h2 : cur.deallocate_me = 0
    · simp [h2] at h
    · simp [h2] at h
      rw [h]; rfl

theorem passFrame_mk {j : Nat} {ps ps1 : Pass} {ch : mix_channel} {p : Ptr}
    (hch : ps.channels[j]? = some ch)
    (hc : ps1.channels = ps.channels.set j { ch with chunk := p })
    (hs : ps1.chunkstacks = ps.chunkstacks ∨
      ∃ stk, ps1.chunkstacks = ps.chunkstacks.set j stk)
    (hl : ps1.stream.length = ps.stream.length)
    (ht : ∀ e ∈ ps1.trace, e ∈ ps.trace ∨ e.channel? = some j ∨ e.channel? = none) :
    passFrame j ps ps1 := by
  have hlt : j < ps.channels.length := lt_length_of_getElem? hch
  refine ⟨?_, ?_, ?_, hl, ht⟩
  · intro k hk
    rw [hc, List.getElem?_set_ne (Ne.symm hk)]
  · intro k hk
    rcases hs with h | ⟨stk, h⟩
    · rw [h]
    · rw [h, List.getElem?_set_ne (Ne.symm hk)]
  · rw [hc]
    simp [hlt, hch]

theorem chunkEnd_frame {hooks : Nat → Hook} {j : Nat} {ch : mix_channel} {a : Nat}
    {cur : mix_chunk} {n : Int} {st st1 : Loop} {b : Bool}
    (hch : st.ps.channels[j]? = some ch)
    (h : chunkEnd hooks j ch a cur n st = .ok (st1, b)) : passFrame j st.ps st1.ps := by
  have hlog : ∀ e ∈ st.ps.trace ++ (runCallback hooks j a cur st.ps.heap).2.2,
      e ∈ st.ps.trace ∨ e.channel? = some j ∨ e.channel? = none := by
    intro e he
    rcases List.mem_append.mp he with h | h
    · exact Or.inl h
    · right; left
      revert h
      unfold runCallback
      cases cur.callback <;> simp [Event.channel?]
      intro h; rw [h]
  have hrel : ∀ (c : mix_chunk) (ps1 : Pass),
      ps1.trace = st.ps.trace ++ (runCallback hooks j a cur st.ps.heap).2.2 →
      ∀ e ∈ (releaseChunk a c ps1).trace,
        e ∈ st.ps.trace ∨ e.channel? = some j ∨ e.channel? = none := by
    intro c ps1 hps1 e he
    rcases mem_releaseChunk_trace he with h | h
    · rw [hps1] at h; exact hlog e h
    · exact Or.inr (Or.inr h)
  unfold chunkEnd at h
  simp only at h
  split at h
  · cases h
    exact passFrame_mk hch rfl (Or.inl rfl) rfl hlog
  · split at h
    · cases h
    · split at h
      · split at h
        · cases h
        · cases h
          exact passFrame_mk hch rfl (Or.inl rfl) rfl hlog
      · split at h
        · cases h
        · split at h
          · split at h
            · cases h
            · cases h
              exact passFrame_mk hch (releaseChunk_channels _ _ _)
                (Or.inr ⟨_, releaseChunk_chunkstacks _ _ _⟩)
                (congrArg List.length (releaseChunk_stream _ _ _)) (hrel _ _ rfl)
          · cases h
            exact passFrame_mk hch (releaseChunk_channels _ _ _)
              (Or.inl (releaseChunk_chunkstacks _ _ _))
              (congrArg List.length (releaseChunk_stream _ _ _)) (hrel _ _ rfl)

theorem passFrame_same {j : Nat} {ps ps1 : Pass}
    (hc : ps1.channels = ps.channels) (hs : ps1.chunkstacks = ps.chunkstacks)
    (hl : ps1.stream.length = ps.stream.length)
    (ht : ∀ e ∈ ps1.trace, e ∈ ps.trace ∨ e.channel? = some j ∨ e.channel? = none) :
    passFrame j ps ps1 :=
  ⟨fun _ _ => by rw [hc], fun _ _ => by rw [hs], by rw [hc], hl, ht⟩

theorem loopBody_frame {hooks : Nat → Hook} {blend : Blend} {j : Nat} {st st1 : Loop}
    {b : Bool} (h : loopBody hooks blend j st = .ok (st1, b)) :
    passFrame j st.ps st1.ps := by
  have hmixlog : ∀ (sp bp n : Int) (a v : Nat),
      ∀ e ∈ st.ps.trace ++ [Event.mix j sp a bp n v],
        e ∈ st.ps.trace ∨ e.channel? = some j ∨ e.channel? = none := by
    intro sp bp n a v e he
    rcases List.mem_append.mp he with h | h
    · exact Or.inl h
    · right; left
      rw [List.mem_singleton.mp h]; rfl
  unfold loopBody at h
  split at h
  · cases h
  · rename_i ch hch
    split at h
    · cases h; exact passFrame_refl _ _
    · split at h
      · cases h
      · simp only at h
        split at h
        · split at h
          · cases h
          · rename_i stream1 hmix
            cases h
            exact passFrame_same rfl rfl (SDL_MixAudioFormat_length hmix) (hmixlog _ _ _ _ _)
        · split at h
          · split at h
            · cases h
            · rename_i stream1 hmix
              have hf := chunkEnd_frame (by exact hch) h
              refine passFrame_trans ?_ hf
              exact passFrame_same rfl rfl (SDL_MixAudioFormat_length hmix)
                (hmixlog _ _ _ _ _)
          · split at h
            · cases h
            · rename_i stream1 hmix
              have hf := chunkEnd_frame (by exact hch) h
              refine passFrame_trans ?_ hf
              exact passFrame_same rfl rfl (SDL_MixAudioFormat_length hmix)
                (hmixlog _ _ _ _ _)

theorem whileLoop_frame {hooks : Nat → Hook} {blend : Blend} {j : Nat} :
    ∀ (fuel : Nat) (st st1 : Loop), whileLoop hooks blend fuel j st = .ok st1 →
      passFrame j st.ps st1.ps := by
  intro fuel
  induction fuel with
  | zero =>
    intro st st1 h
    rw [whileLoop] at h
    split at h
    · cases h
    · cases h; exact passFrame_refl _ _
  | succ n ih =>
    intro st st1 h
    rw [whileLoop] at h
    split at h
    · split at h
      · rename_i st2 hb
        exact passFrame_trans (loopBody_frame hb) (ih _ _ h)
      · rename_i st2 hb
        cases h
        exact loopBody_frame hb
      · cases h
      · cases h
    · cases h; exact passFrame_refl _ _

theorem mixChannel_frame {hooks : Nat → Hook} {blend : Blend} {fuel j : Nat} {len : Int}
    {ps ps1 : Pass} (h : mixChannel hooks blend fuel len j ps = .ok ps1) :
    passFrame j ps ps1 := by
  unfold mixChannel at h
  split at h
  · cases h
  · split at h
    · cases h; exact passFrame_refl _ _
    · split at h
      · rename_i st hloop
        cases h
        exact whileLoop_frame _ _ _ hloop
      · cases h
      · cases h

/-- The outer loop is the sequence of its steps: the part of a pass for channel
`s + n` starts from the state the parts for channels `s, ..., s + n - 1` leave. -/
theorem forChannels_add (hooks : Nat → Hook) (blend : Blend) (fuel : Nat) (len : Int) :
    ∀ (n k s : Nat) (ps : Pass),
      forChannels hooks blend fuel len (n + k) s ps =
        match forChannels hooks blend fuel len n s ps with
        | .ok ps1 => forChannels hooks blend fuel len k (s + n) ps1
        | .undefined => .undefined
        | .outOfFuel => .outOfFuel := by
  intro n
  induction n with
  | zero =>
    intro k s ps
    simp [forChannels]
  | succ n ih =>
    intro k s ps
    have hnk : n + 1 + k = (n + k) + 1 := by omega
    rw [hnk, forChannels, forChannels]
    cases hm : mixChannel hooks blend fuel len s ps with
    | ok ps1 =>
      simp only []
      rw [ih k (s + 1) ps1]
      have hs : s + 1 + n = s + (n + 1) := by omega
      rw [hs]
    | undefined => rfl
    | outOfFuel => rfl

/-- A channel that is not playing is skipped (lines 82-85). -/
theorem mixChannel_paused {hooks : Nat → Hook} {blend : Blend} {fuel i : Nat} {len : Int}
    {ps : Pass} {ch : mix_channel} (hch : ps.channels[i]? = some ch) (hplay : ch.playing = 0) :
    mixChannel hooks blend fuel len i ps = .ok ps := by
  unfold mixChannel
  simp only [hch, hplay, if_true]

/-- The outer loop over channels that are all paused changes nothing. -/
theorem forChannels_idle (hooks : Nat → Hook) (blend : Blend) (fuel : Nat) (len : Int) :
    ∀ (n s : Nat) (ps : Pass),
      (∀ j, s ≤ j → j < s + n → ∃ c, ps.channels[j]? = some c ∧ c.playing = 0) →
      forChannels hooks blend fuel len n s ps = .ok ps := by
  intro n
  induction n with
  | zero =>
    intro s ps _
    rw [forChannels]
  | succ n ih =>
    intro s ps hidle
    obtain ⟨c, hc, hp⟩ := hidle s (le_refl _) (by omega)
    rw [forChannels, mixChannel_paused hc hp]
    exact ih (s + 1) ps (fun j h1 h2 => hidle j (by omega) (by omega))

/-- When channel `i` is the only one that may be playing, the outer loop does
what the part for channel `i` does. -/
theorem forChannels_single (hooks : Nat → Hook) (blend : Blend) (fuel i : Nat) (len : Int) :
    ∀ (n s : Nat) (ps ps1 : Pass), s ≤ i → i < s + n →
      (∀ j, s ≤ j → j < s + n → j ≠ i → ∃ c, ps.channels[j]? = some c ∧ c.playing = 0) →
      mixChannel hooks blend fuel len i ps = .ok ps1 →
      forChannels hooks blend fuel len n s ps = .ok ps1 := by
  intro n
  induction n with
  | zero =>
    intro s ps ps1 h1 h2
    omega
  | succ n ih =>
    intro s ps ps1 h1 h2 hidle hrun
    by_cases hsi : s = i
    · subst hsi
      rw [forChannels, hrun]
      apply forChannels_idle
      intro j hj1 hj2
      have hne : j ≠ s := by omega
      obtain ⟨c, hc, hp⟩ := hidle j (by omega) (by omega) hne
      exact ⟨c, by rw [(mixChannel_frame hrun).1 j hne, hc], hp⟩
    · obtain ⟨c, hc, hp⟩ := hidle s (le_refl _) (by omega) hsi
      rw [forChannels, mixChannel_paused hc hp]
      exact ih (s + 1) ps ps1 (by omega) (by omega)
        (fun j hj1 hj2 hne => hidle j (by omega) (by omega) hne) hrun

/-- When channel `i` is the only one that may be playing, the whole callback
does what the part for channel `i` does on the silenced stream. -/
theorem MixCallback_single (hooks : Nat → Hook) (blend : Blend) (fuel i : Nat) (len : Int)
    (m : Mixer) (ps1 : Pass) (hlen : 0 ≤ len) (hi : i < NUM_CHANNELS)
    (hidle : ∀ j, j < NUM_CHANNELS → j ≠ i → ∃ c, m.channels[j]? = some c ∧ c.playing = 0)
    (hrun : mixChannel hooks blend fuel len i
      { heap := m.heap, channels := m.channels, chunkstacks := m.chunkstacks,
        stream := List.replicate len.toNat 0, trace := [] } = .ok ps1) :
    MixCallback hooks blend fuel len m = .ok ps1 := by
  unfold MixCallback
  rw [if_neg (by omega)]
  exact forChannels_single hooks blend fuel i len NUM_CHANNELS 0 _ ps1 (Nat.zero_le _)
    (by omega) (fun j _ hj hne => hidle j (by omega) hne) hrun

/-- Through the outer loop, a channel that is not playing keeps its table entry
and its stack, and no mix or callback is logged for it. -/
theorem forChannels_paused (hooks : Nat → Hook) (blend : Blend) (fuel i : Nat) (len : Int)
    (ch : mix_channel) (hplay : ch.playing = 0) :
    ∀ (n s : Nat) (ps ps1 : Pass), ps.channels[i]? = some ch →
      forChannels hooks blend fuel len n s ps = .ok ps1 →
      ps1.channels[i]? = some ch ∧ ps1.chunkstacks[i]? = ps.chunkstacks[i]? ∧
        ∀ e ∈ ps1.trace, e ∈ ps.trace ∨ e.channel? ≠ some i := by
  intro n
  induction n with
  | zero =>
    intro s ps ps1 hch h
    rw [forChannels] at h
    cases h
    exact ⟨hch, rfl, fun _ he => Or.inl he⟩
  | succ n ih =>
    intro s ps ps1 hch h
    rw [forChannels] at h
    split at h
    · rename_i ps2 hmix
      by_cases hsi : s = i
      · subst hsi
        rw [mixChannel_paused hch hplay] at hmix
        cases hmix
        exact ih _ _ _ hch h
      · obtain ⟨f1, f2, _, _, f5⟩ := mixChannel_frame hmix
        have hch2 : ps2.channels[i]? = some ch := by rw [f1 i (Ne.symm hsi), hch]
        obtain ⟨g1, g2, g3⟩ := ih _ _ _ hch2 h
        refine ⟨g1, by rw [g2, f2 i (Ne.symm hsi)], fun e he => ?_⟩
        rcases g3 e he with h3 | h3
        · rcases f5 e h3 with h5 | h5 | h5
          · exact Or.inl h5
          · right; rw [h5]; intro hc; exact hsi (Option.some.inj hc)
          · right; rw [h5]; exact Option.noConfusion
        · exact Or.inr h3
    · cases h
    · cases h

theorem set_of_getElem? {α : Type} {l : List α} {k : Nat} {x : α} (h : l[k]? = some x) :
    l.set k x = l := by
  apply List.ext_getElem?
  intro j
  by_cases hkj : k = j
  · subst hkj
    rw [List.getElem?_set_self (lt_length_of_getElem? h), h]
  · rw [List.getElem?_set_ne hkj]

/-- What a run of the loop body does when it exhausts the current chunk. -/
theorem loopBody_exhaust_run (hooks : Nat → Hook) (blend : Blend) (i : Nat)
    (st : Loop) (ch : mix_channel) (a : Nat) (cur cur1 : mix_chunk) (stk : voidstack)
    (stream1 : List Nat) (heap1 : Heap) (r : Ptr)
    (hch : st.ps.channels[i]? = some ch) (hchunk : ch.chunk = some a)
    (hcur : readChunk st.ps.heap a = some cur)
    (hex : cur.buflen - cur.bufpos ≤ st.bytestogo)
    (hmix : SDL_MixAudioFormat blend st.ps.stream st.streampos cur.buf cur.bufpos
      (cur.buflen - cur.bufpos) ch.volume = some stream1)
    (hstk : st.ps.chunkstacks[i]? = some stk)
    (hcb : (match cur.callback with
            | some f => hooks f (i : Int) a st.ps.heap
            | none => (st.ps.heap, none)) = (heap1, r))
    (hcur1 : r = none → readChunk heap1 a = some cur1)
    (hnext : r = none → ∀ nx, cur1.nextChunk = some nx → (readChunk heap1 nx).isSome) :
    ∃ st1, loopBody hooks blend i st = .ok (st1, true) ∧
      st1.ps.channels =
        st.ps.channels.set i { ch with chunk := nextChunkBySpec r cur1.nextChunk stk.items } ∧
      st1.ps.stream = stream1 ∧
      st1.streampos = st.streampos + (cur.buflen - cur.bufpos) ∧
      st1.bytestogo = st.bytestogo - (cur.buflen - cur.bufpos) ∧
      st1.ps.trace.filter Event.isMix = st.ps.trace.filter Event.isMix ++
        [Event.mix i st.streampos a cur.bufpos (cur.buflen - cur.bufpos) ch.volume] ∧
      (st1.ps.chunkstacks = st.ps.chunkstacks ∨
        st1.ps.chunkstacks = st.ps.chunkstacks.set i ⟨stk.items.tail⟩) ∧
      st1.ps.chunkstacks =
        st.ps.chunkstacks.set i ⟨nextStackBySpec r cur1.nextChunk stk.items⟩ := by
  have hsame : st.ps.chunkstacks = st.ps.chunkstacks.set i ⟨stk.items⟩ :=
    (set_of_getElem? hstk).symm
  have hrun : runCallback hooks i a cur st.ps.heap =
      (heap1, r, (runCallback hooks i a cur st.ps.heap).2.2) := by
    unfold runCallback
    cases hc : cur.callback with
    | none => rw [hc] at hcb; simp at hcb; simp [hcb.1, hcb.2]
    | some f => rw [hc] at hcb; simp at hcb; simp [hcb]
  have hlog : (runCallback hooks i a cur st.ps.heap).2.2.filter Event.isMix = [] := by
    unfold runCallback
    cases cur.callback <;> simp [Event.isMix]
  rw [loopBody_exhaust hch hchunk hcur hex hmix]
  unfold chunkEnd
  rw [hrun]
  cases r with
  | some n =>
    exact ⟨_, rfl, by simp [nextChunkBySpec], rfl, rfl, rfl,
      by simp [List.filter_append, hlog, Event.isMix], Or.inl rfl, hsame⟩
  | none =>
    have h1 := hcur1 rfl
    simp only [h1]
    cases hnx : cur1.nextChunk with
    | some nx =>
      obtain ⟨nc, hnc⟩ := Option.isSome_iff_exists.mp (hnext rfl nx hnx)
      simp only [hnc]
      exact ⟨_, rfl, by simp [nextChunkBySpec], rfl, rfl, rfl,
        by simp [List.filter_append, hlog, Event.isMix], Or.inl rfl, hsame⟩
    | none =>
      simp only [hstk]
      cases hitems : stk.items with
      | nil =>
        have hsz : ¬ (stk.size > 0) := by simp [voidstack.size, hitems]
        rw [if_neg hsz]
        exact ⟨_, rfl, by simp [nextChunkBySpec], by simp, rfl, rfl,
          by simp [List.filter_append, hlog, Event.isMix], Or.inl (by simp),
          by simpa [nextStackBySpec, hitems] using hsame⟩
      | cons top rest =>
        have hsz : stk.size > 0 := by simp [voidstack.size, hitems]
        have hpop : voidpop stk = some (⟨rest⟩, top) := by simp [voidpop, hitems]
        rw [if_pos hsz]
        simp only [hpop]
        exact ⟨_, rfl, by simp [nextChunkBySpec], by simp, rfl, rfl,
          by simp [List.filter_append, hlog, Event.isMix], Or.inr (by simp),
          by simp [nextStackBySpec]⟩

/-! ## The claims about the control functions and the mixing pass -/

/-- C1 (the code at the failing input): on the freshly initialised table,
`FreeChannel(0)` leaves channel 0 with `reserved = 1`, and the
`ReserveChannel(0)` that follows fails with `rSORRY` and changes nothing. -/
theorem FreeChannel_leaves_reserved (rc : RetCodes) (heap : Heap) :
    ∃ m1, FreeChannel 0 (initialMixer heap) = .ok m1 ∧
      m1.channels[0]? = some { chunk := none, volume := 128, reserved := 1, playing := 0 } ∧
      ReserveChannel rc 0 m1 = .ok (m1, rc.rSORRY) := by
  refine ⟨_, rfl, rfl, rfl⟩

/-- C2 (the code at the failing input): on the freshly initialised table, where
channel 0 is paused (`playing = 0`), `SetChunk(0, chunk)` returns the old chunk
and leaves channel 0 with `playing = 1`. -/
theorem SetChunk_unpauses (heap : Heap) (chunk : Ptr) :
    (initialMixer heap).channels[0]? =
        some { chunk := none, volume := 128, reserved := 0, playing := 0 } ∧
    ∃ m1, SetChunk 0 chunk (initialMixer heap) = .ok (m1, none) ∧
      m1.channels[0]? = some { chunk := chunk, volume := 128, reserved := 0, playing := 1 } := by
  refine ⟨rfl, _, rfl, rfl⟩

/-- C3 (the code at the failing input): on the freshly initialised table,
`GetChannelDetails(0, &d)` with `d = {NULL, 7, 1, 1}` leaves `d` as it was and
overwrites channel 0 with `d`. -/
theorem GetChannelDetails_overwrites_channel (heap : Heap) :
    (initialMixer heap).channels[0]? =
        some { chunk := none, volume := 128, reserved := 0, playing := 0 } ∧
    ∃ m1, GetChannelDetails 0 { chunk := none, volume := 7, reserved := 1, playing := 1 }
        (initialMixer heap) =
        .ok (m1, { chunk := none, volume := 7, reserved := 1, playing := 1 }) ∧
      m1.channels[0]? = some { chunk := none, volume := 7, reserved := 1, playing := 1 } := by
  refine ⟨rfl, _, rfl, rfl⟩

/-- C5: channel `i` is playing chunk `a` of length `cur.buflen` at cursor 0 and
the pass asks for `B` bytes with `0 < B < cur.buflen`.  Then the channel's part
of the pass is exactly one mix of `B` bytes from chunk offset 0 to stream
offset 0 at the channel's volume; the cursor becomes `B`; the channel table
(so the current chunk) and the interrupt stacks are unchanged, and the log
gains the mix and nothing else (no callback runs, nothing is freed). -/
theorem mixChannel_partial (hooks : Nat → Hook) (blend : Blend) (fuel i : Nat) (ps : Pass)
    (B : Int) (ch : mix_channel) (a : Nat) (cur : mix_chunk)
    (hch : ps.channels[i]? = some ch) (hplay : ch.playing ≠ 0) (hchunk : ch.chunk = some a)
    (hcur : readChunk ps.heap a = some cur) (hpos : cur.bufpos = 0)
    (hbuf : cur.buflen ≤ cur.buf.length)
    (hB0 : 0 < B) (hBL : B < cur.buflen) (hstream : ps.stream.length = B.toNat) :
    ∃ stream1, SDL_MixAudioFormat blend ps.stream 0 cur.buf 0 B ch.volume = some stream1 ∧
      mixChannel hooks blend (fuel + 1) B i ps =
        .ok { heap := writeChunk ps.heap a { cur with bufpos := B },
              channels := ps.channels,
              chunkstacks := ps.chunkstacks,
              stream := stream1,
              trace := ps.trace ++ [Event.mix i 0 a 0 B ch.volume] } := by
  have hb : 0 ≤ B ∧ (0 : Int) ≤ 0 ∧ 0 + B ≤ ps.stream.length ∧ (0 : Int) ≤ 0 ∧
      0 + B ≤ cur.buf.length := by
    refine ⟨by omega, le_refl _, ?_, le_refl _, by omega⟩
    rw [hstream]; omega
  refine ⟨_, SDL_MixAudioFormat_eq blend ch.volume hb, ?_⟩
  have hmix := SDL_MixAudioFormat_eq blend ch.volume hb
  have hbody := loopBody_partial hooks blend i ⟨ps, 0, B⟩ hch hchunk hcur (by rw [hpos]; simpa using hBL)
    (by rw [hpos]; exact hmix)
  have hloop := whileLoop_break fuel ⟨ps, 0, B⟩ hB0 hbody
  unfold mixChannel
  simp only [hch, hplay, if_false, hloop, hpos, zero_add]

/-- Witness for `mixChannel_partial`: a chunk of 100 bytes at cursor 0 and a
pass of 40 bytes. -/
theorem mixChannel_partial_witness :
    ∃ stream1,
      SDL_MixAudioFormat exampleBlend
          (examplePass [some (exampleChunk 100 0 none none)]
            { chunk := some 0, volume := 128, reserved := 1, playing := 1 } ⟨[]⟩ 40).stream
          0 (exampleChunk 100 0 none none).buf 0 40 128 = some stream1 ∧
      mixChannel noHooks exampleBlend (0 + 1) 40 0
          (examplePass [some (exampleChunk 100 0 none none)]
            { chunk := some 0, volume := 128, reserved := 1, playing := 1 } ⟨[]⟩ 40) =
        .ok { heap := writeChunk
                (examplePass [some (exampleChunk 100 0 none none)]
                  { chunk := some 0, volume := 128, reserved := 1, playing := 1 } ⟨[]⟩ 40).heap
                0 { exampleChunk 100 0 none none with bufpos := 40 },
              channels := (examplePass [some (exampleChunk 100 0 none none)]
                { chunk := some 0, volume := 128, reserved := 1, playing := 1 } ⟨[]⟩ 40).channels,
              chunkstacks := (examplePass [some (exampleChunk 100 0 none none)]
                { chunk := some 0, volume := 128, reserved := 1, playing := 1 } ⟨[]⟩
                40).chunkstacks,
              stream := stream1,
              trace := (examplePass [some (exampleChunk 100 0 none none)]
                { chunk := some 0, volume := 128, reserved := 1, playing := 1 } ⟨[]⟩ 40).trace ++
                [Event.mix 0 0 0 0 40 128] } :=
  mixChannel_partial noHooks exampleBlend 0 0
    (examplePass [some (exampleChunk 100 0 none none)]
      { chunk := some 0, volume := 128, reserved := 1, playing := 1 } ⟨[]⟩ 40)
    40 { chunk := some 0, volume := 128, reserved := 1, playing := 1 } 0
    (exampleChunk 100 0 none none)
    (by decide) (by decide) (by decide) (by decide) (by decide) (by decide) (by decide)
    (by decide) (by decide)

/-- C7: chunk `a` (contents `A`) has `A.buflen` bytes, no callback and no
continuation.  `PlayChunk(i, a)` makes it the current chunk of channel `i` at
cursor 0 with `playing = 1` and returns the old chunk.  In any later pass of
`B > 0` bytes that finds the channel so, with an empty stack and the cursor at
`p` (remainder `R = A.buflen - p`), the channel's part of the pass makes one
mix of `min B R` bytes from chunk offset `p` to stream offset 0.  If `B < R`,
only the cursor moves, to `p + B`.  Otherwise the current chunk becomes none
and the chunk is released as flagged.  In both cases the stream from offset
`min B R` on is as it was before the channel's part: every byte there that was
zero (as the `memset` left it) is still zero. -/
theorem PlayChunk_then_passes (hooks : Nat → Hook) (blend : Blend) (m : Mixer) (i : Int)
    (ch : mix_channel) (a : Nat) (A : mix_chunk) (B p : Int) (fuel : Nat) (ps : Pass)
    (h0 : 0 ≤ i) (h1 : i < (NUM_CHANNELS : Int))
    (hch : m.channels[i.toNat]? = some ch)
    (hA : readChunk m.heap a = some A) (hlen : A.buflen = A.buf.length)
    (hcb : A.callback = none) (hnx : A.nextChunk = none) (hB : 0 < B)
    (hps : ps.channels[i.toNat]? = some { ch with chunk := some a, playing := 1 })
    (hstk : ps.chunkstacks[i.toNat]? = some ⟨[]⟩)
    (hcur : readChunk ps.heap a = some { A with bufpos := p })
    (hp0 : 0 ≤ p) (hpL : p ≤ A.buflen) (hstream : ps.stream.length = B.toNat) :
    PlayChunk i (some a) m =
        .ok ({ heap := writeChunk m.heap a { A with bufpos := 0 },
               channels := m.channels.set i.toNat { ch with chunk := some a, playing := 1 },
               chunkstacks := m.chunkstacks }, ch.chunk) ∧
      ∃ stream1,
        SDL_MixAudioFormat blend ps.stream 0 A.buf p (min B (A.buflen - p)) ch.volume =
          some stream1 ∧
        mixChannel hooks blend (fuel + 2) B i.toNat ps =
          .ok (if B < A.buflen - p then
                { heap := writeChunk ps.heap a { A with bufpos := p + B },
                  channels := ps.channels,
                  chunkstacks := ps.chunkstacks,
                  stream := stream1,
                  trace := ps.trace ++
                    [Event.mix i.toNat 0 a p (min B (A.buflen - p)) ch.volume] }
              else
                releaseChunk a { A with bufpos := p }
                  { heap := ps.heap,
                    channels := ps.channels.set i.toNat { ch with chunk := none, playing := 1 },
                    chunkstacks := ps.chunkstacks,
                    stream := stream1,
                    trace := ps.trace ++
                      [Event.mix i.toNat 0 a p (min B (A.buflen - p)) ch.volume] }) ∧
        stream1.drop (min B (A.buflen - p)).toNat =
          ps.stream.drop (min B (A.buflen - p)).toNat ∧
        ∀ k, (min B (A.buflen - p)).toNat ≤ k → ps.stream[k]? = some 0 →
          stream1[k]? = some 0 := by
  refine ⟨?_, ?_⟩
  · simp only [PlayChunk, channelAt_of_getElem h0 h1 hch, hA]
  · have hb : 0 ≤ min B (A.buflen - p) ∧ (0 : Int) ≤ 0 ∧
        0 + min B (A.buflen - p) ≤ ps.stream.length ∧ 0 ≤ p ∧
        p + min B (A.buflen - p) ≤ A.buf.length := by
      refine ⟨by omega, le_refl _, ?_, hp0, by omega⟩
      rw [hstream]; omega
    have hmix := SDL_MixAudioFormat_eq blend ch.volume hb
    have hdrop := SDL_MixAudioFormat_drop hmix
    rw [zero_add] at hdrop
    refine ⟨_, hmix, ?_, hdrop, ?_⟩
    · by_cases hlt : B < A.buflen - p
      · rw [if_pos hlt]
        have hmin : min B (A.buflen - p) = B := by omega
        rw [hmin] at hmix ⊢
        exact mixChannel_consume (fuel + 1) hps Nat.one_ne_zero rfl hcur hB hlt hmix
      · rw [if_neg hlt]
        have hmin : min B (A.buflen - p) = A.buflen - p := by omega
        rw [hmin] at hmix ⊢
        exact mixChannel_finish hps Nat.one_ne_zero rfl hcur hB (by simpa using hlt) hmix
          hcb hnx hstk
    · intro k hk hz
      have hsplit : k = (min B (A.buflen - p)).toNat + (k - (min B (A.buflen - p)).toNat) := by
        omega
      rw [hsplit, ← List.getElem?_drop, hdrop, List.getElem?_drop, ← hsplit]
      exact hz

/-- Witness for `PlayChunk_then_passes`: a chunk of 100 bytes and passes of 40
bytes; the third pass starts at cursor 80. -/
theorem PlayChunk_then_passes_witness :
    PlayChunk 0 (some 0) (initialMixer [some (exampleChunk 100 0 none none)]) =
        .ok ({ heap := writeChunk (initialMixer [some (exampleChunk 100 0 none none)]).heap 0
                 { exampleChunk 100 0 none none with bufpos := 0 },
               channels := (initialMixer [some (exampleChunk 100 0 none none)]).channels.set
                 (0 : Int).toNat { freshChannel with chunk := some 0, playing := 1 },
               chunkstacks := (initialMixer [some (exampleChunk 100 0 none none)]).chunkstacks },
             freshChannel.chunk) ∧
      ∃ stream1,
        SDL_MixAudioFormat exampleBlend
            (examplePass [some (exampleChunk 100 80 none none)]
              { chunk := some 0, volume := 128, reserved := 0, playing := 1 } ⟨[]⟩ 40).stream
            0 (exampleChunk 100 0 none none).buf 80
            (min 40 ((exampleChunk 100 0 none none).buflen - 80)) freshChannel.volume =
          some stream1 ∧
        mixChannel noHooks exampleBlend (0 + 2) 40 (0 : Int).toNat
            (examplePass [some (exampleChunk 100 80 none none)]
              { chunk := some 0, volume := 128, reserved := 0, playing := 1 } ⟨[]⟩ 40) =
          .ok (if 40 < (exampleChunk 100 0 none none).buflen - 80 then
                { heap := writeChunk
                    (examplePass [some (exampleChunk 100 80 none none)]
                      { chunk := some 0, volume := 128, reserved := 0, playing := 1 }
                      ⟨[]⟩ 40).heap
                    0 { exampleChunk 100 0 none none with bufpos := 80 + 40 },
                  channels := (examplePass [some (exampleChunk 100 80 none none)]
                    { chunk := some 0, volume := 128, reserved := 0, playing := 1 }
                    ⟨[]⟩ 40).channels,
                  chunkstacks := (examplePass [some (exampleChunk 100 80 none none)]
                    { chunk := some 0, volume := 128, reserved := 0, playing := 1 }
                    ⟨[]⟩ 40).chunkstacks,
                  stream := stream1,
                  trace := (examplePass [some (exampleChunk 100 80 none none)]
                    { chunk := some 0, volume := 128, reserved := 0, playing := 1 }
                    ⟨[]⟩ 40).trace ++
                    [Event.mix (0 : Int).toNat 0 0 80
                      (min 40 ((exampleChunk 100 0 none none).buflen - 80))
                      freshChannel.volume] }
              else
                releaseChunk 0 { exampleChunk 100 0 none none with bufpos := 80 }
                  { heap := (examplePass [some (exampleChunk 100 80 none none)]
                      { chunk := some 0, volume := 128, reserved := 0, playing := 1 }
                      ⟨[]⟩ 40).heap,
                    channels := (examplePass [some (exampleChunk 100 80 none none)]
                      { chunk := some 0, volume := 128, reserved := 0, playing := 1 }
                      ⟨[]⟩ 40).channels.set (0 : Int).toNat
                        { freshChannel with chunk := none, playing := 1 },
                    chunkstacks := (examplePass [some (exampleChunk 100 80 none none)]
                      { chunk := some 0, volume := 128, reserved := 0, playing := 1 }
                      ⟨[]⟩ 40).chunkstacks,
                    stream := stream1,
                    trace := (examplePass [some (exampleChunk 100 80 none none)]
                      { chunk := some 0, volume := 128, reserved := 0, playing := 1 }
                      ⟨[]⟩ 40).trace ++
                      [Event.mix (0 : Int).toNat 0 0 80
                        (min 40 ((exampleChunk 100 0 none none).buflen - 80))
                        freshChannel.volume] }) ∧
        stream1.drop (min 40 ((exampleChunk 100 0 none none).buflen - 80)).toNat =
          (examplePass [some (exampleChunk 100 80 none none)]
            { chunk := some 0, volume := 128, reserved := 0, playing := 1 } ⟨[]⟩ 40).stream.drop
            (min 40 ((exampleChunk 100 0 none none).buflen - 80)).toNat ∧
        ∀ k, (min 40 ((exampleChunk 100 0 none none).buflen - 80)).toNat ≤ k →
          (examplePass [some (exampleChunk 100 80 none none)]
            { chunk := some 0, volume := 128, reserved := 0, playing := 1 } ⟨[]⟩
            40).stream[k]? = some 0 →
          stream1[k]? = some 0 :=
  PlayChunk_then_passes noHooks exampleBlend (initialMixer [some (exampleChunk 100 0 none none)])
    0 freshChannel 0 (exampleChunk 100 0 none none) 40 80 0
    (examplePass [some (exampleChunk 100 80 none none)]
      { chunk := some 0, volume := 128, reserved := 0, playing := 1 } ⟨[]⟩ 40)
    (by decide) (by decide) (by decide) (by decide) (by decide) (by decide) (by decide)
    (by decide) (by decide) (by decide) (by decide) (by decide) (by decide) (by decide)

/-- C8: channel `i` is playing chunk `a` (length `A.buflen > 0`, cursor 0, no
callback) whose continuation is chunk `b` (length `Bc.buflen > 0`, no
callback).  In a pass of `A.buflen + Bc.buflen` bytes the channel's part makes
exactly two mixes: the bytes of `a` to stream offsets `[0, A.buflen)` and the
bytes of `b`, from its offset 0, to `[A.buflen, A.buflen + Bc.buflen)`.  Every
byte of the resulting stream is a blend of chunk data: none keeps its old
value. -/
theorem continuation_pass (hooks : Nat → Hook) (blend : Blend) (fuel i : Nat) (ps : Pass)
    (ch : mix_channel) (a b : Nat) (A Bc : mix_chunk) (stk : voidstack)
    (hch : ps.channels[i]? = some ch) (hplay : ch.playing ≠ 0) (hchunk : ch.chunk = some a)
    (hA : readChunk ps.heap a = some A) (hB : readChunk ps.heap b = some Bc)
    (hApos : A.bufpos = 0) (hAcb : A.callback = none) (hAnx : A.nextChunk = some b)
    (hBcb : Bc.callback = none)
    (hLa : 0 < A.buflen) (hLb : 0 < Bc.buflen)
    (hAbuf : A.buflen ≤ A.buf.length) (hBbuf : Bc.buflen ≤ Bc.buf.length)
    (hBnx : ∀ nx, Bc.nextChunk = some nx → (readChunk ps.heap nx).isSome)
    (hstk : ps.chunkstacks[i]? = some stk)
    (hstream : ps.stream.length = (A.buflen + Bc.buflen).toNat) :
    ∃ ps1, mixChannel hooks blend (fuel + 2) (A.buflen + Bc.buflen) i ps = .ok ps1 ∧
      ps1.trace.filter Event.isMix = ps.trace.filter Event.isMix ++
        [Event.mix i 0 a 0 A.buflen ch.volume, Event.mix i A.buflen b 0 Bc.buflen ch.volume] ∧
      ps1.stream =
        (List.range A.buflen.toNat).map
            (blend (ps.stream.take A.buflen.toNat) (A.buf.take A.buflen.toNat) ch.volume) ++
          (List.range Bc.buflen.toNat).map
            (blend (ps.stream.drop A.buflen.toNat) (Bc.buf.take Bc.buflen.toNat) ch.volume) := by
  have hsl : ps.stream.length = A.buflen.toNat + Bc.buflen.toNat := by
    rw [hstream]; omega
  -- first run of the body: all of `a`
  have hb1 : 0 ≤ A.buflen - A.bufpos ∧ (0 : Int) ≤ 0 ∧
      0 + (A.buflen - A.bufpos) ≤ ps.stream.length ∧ 0 ≤ A.bufpos ∧
      A.bufpos + (A.buflen - A.bufpos) ≤ A.buf.length := by
    refine ⟨by omega, le_refl _, ?_, by omega, by omega⟩
    rw [hsl]; omega
  have hmix1 := SDL_MixAudioFormat_eq blend ch.volume hb1
  have hbody1 := loopBody_exhaust_next hooks blend i ⟨ps, 0, A.buflen + Bc.buflen⟩ hch hchunk hA (by simp only; omega) hmix1 hAcb hAnx hB
  have hstep1 := whileLoop_step (fuel + 1) ⟨ps, 0, A.buflen + Bc.buflen⟩
    (by simp only; omega) hbody1
  -- second run of the body: all of `b`, from its offset 0
  have hlt : i < ps.channels.length := lt_length_of_getElem? hch
  have hlen1 := SDL_MixAudioFormat_length hmix1
  have hb2 : 0 ≤ Bc.buflen - 0 ∧ (0 : Int) ≤ 0 + (A.buflen - A.bufpos) ∧
      0 + (A.buflen - A.bufpos) + (Bc.buflen - 0) ≤
        ((ps.stream.take (0 : Int).toNat ++
          (List.range (A.buflen - A.bufpos).toNat).map
            (blend ((ps.stream.drop (0 : Int).toNat).take (A.buflen - A.bufpos).toNat)
              ((A.buf.drop A.bufpos.toNat).take (A.buflen - A.bufpos).toNat) ch.volume)
          ++ ps.stream.drop ((0 : Int).toNat + (A.buflen - A.bufpos).toNat)).length : Int) ∧
      (0 : Int) ≤ 0 ∧ 0 + (Bc.buflen - 0) ≤ Bc.buf.length := by
    refine ⟨by omega, by omega, ?_, le_refl _, by omega⟩
    rw [hlen1, hsl]; omega
  have hmix2 := SDL_MixAudioFormat_eq blend ch.volume hb2
  have hcurb : readChunk (writeChunk ps.heap b { Bc with bufpos := 0 }) b =
      some { Bc with bufpos := 0 } :=
    readChunk_writeChunk_same _ (lt_length_of_readChunk hB)
  obtain ⟨st2, hbody2, -, hs2, -, hbg2, htr2, -⟩ :=
    loopBody_exhaust_run hooks blend i
      ⟨{ heap := writeChunk ps.heap b { Bc with bufpos := 0 },
                channels := ps.channels.set i { ch with chunk := some b },
                chunkstacks := ps.chunkstacks,
                stream := _,
                trace := ps.trace ++
                  [Event.mix i 0 a A.bufpos (A.buflen - A.bufpos) ch.volume] },
              0 + (A.buflen - A.bufpos),
              A.buflen + Bc.buflen - (A.buflen - A.bufpos)⟩
      { ch with chunk := some b } b { Bc with bufpos := 0 }
      { Bc with bufpos := 0 } stk _
      (writeChunk ps.heap b { Bc with bufpos := 0 }) none
      (by simp [hlt]) rfl hcurb (by simp only; omega) hmix2 hstk
      (by simp only [hBcb]) (fun _ => hcurb)
      (fun _ nx hnx => by
        by_cases hnb : nx = b
        · rw [hnb, hcurb]; rfl
        · rw [readChunk_writeChunk_ne _ (Ne.symm hnb)]; exact hBnx nx hnx)
  have hstep2 := whileLoop_step fuel _ (by simp only; omega) hbody2
  have hdone : whileLoop hooks blend fuel i st2 = .ok st2 :=
    whileLoop_done (by rw [hbg2]; simp only; omega)
  refine ⟨st2.ps, mixChannel_playing hch hplay (by rw [hstep1, hstep2, hdone]), ?_, ?_⟩
  · rw [htr2]
    simp [List.filter_append, Event.isMix, hApos]
  · rw [hs2]
    have h := two_blocks blend A.buf Bc.buf ch.volume hsl _ rfl
    simp only [hApos, sub_zero, zero_add, Int.toNat_zero] at h ⊢
    exact h

/-- Witness for `continuation_pass`: chunk 0 of 50 bytes continues into chunk 1
of 50 bytes; the pass asks for 100 bytes. -/
theorem continuation_pass_witness :
    ∃ ps1,
      mixChannel noHooks exampleBlend (0 + 2)
          ((exampleChunk 50 0 none (some 1)).buflen + (exampleChunk 50 0 none none).buflen) 0
          (examplePass
            [some (exampleChunk 50 0 none (some 1)), some (exampleChunk 50 0 none none)]
            { chunk := some 0, volume := 128, reserved := 1, playing := 1 } ⟨[]⟩ 100) =
        .ok ps1 ∧
      ps1.trace.filter Event.isMix =
        (examplePass
            [some (exampleChunk 50 0 none (some 1)), some (exampleChunk 50 0 none none)]
            { chunk := some 0, volume := 128, reserved := 1, playing := 1 } ⟨[]⟩
            100).trace.filter Event.isMix ++
          [Event.mix 0 0 0 0 (exampleChunk 50 0 none (some 1)).buflen 128,
           Event.mix 0 (exampleChunk 50 0 none (some 1)).buflen 1 0
             (exampleChunk 50 0 none none).buflen 128] ∧
      ps1.stream =
        (List.range (exampleChunk 50 0 none (some 1)).buflen.toNat).map
            (exampleBlend
              ((examplePass
                [some (exampleChunk 50 0 none (some 1)), some (exampleChunk 50 0 none none)]
                { chunk := some 0, volume := 128, reserved := 1, playing := 1 } ⟨[]⟩
                100).stream.take (exampleChunk 50 0 none (some 1)).buflen.toNat)
              ((exampleChunk 50 0 none (some 1)).buf.take
                (exampleChunk 50 0 none (some 1)).buflen.toNat) 128) ++
          (List.range (exampleChunk 50 0 none none).buflen.toNat).map
            (exampleBlend
              ((examplePass
                [some (exampleChunk 50 0 none (some 1)), some (exampleChunk 50 0 none none)]
                { chunk := some 0, volume := 128, reserved := 1, playing := 1 } ⟨[]⟩
                100).stream.drop (exampleChunk 50 0 none (some 1)).buflen.toNat)
              ((exampleChunk 50 0 none none).buf.take
                (exampleChunk 50 0 none none).buflen.toNat) 128) :=
  continuation_pass noHooks exampleBlend 0 0
    (examplePass [some (exampleChunk 50 0 none (some 1)), some (exampleChunk 50 0 none none)]
      { chunk := some 0, volume := 128, reserved := 1, playing := 1 } ⟨[]⟩ 100)
    { chunk := some 0, volume := 128, reserved := 1, playing := 1 } 0 1
    (exampleChunk 50 0 none (some 1)) (exampleChunk 50 0 none none) ⟨[]⟩
    (by decide) (by decide) (by decide) (by decide) (by decide) (by decide) (by decide)
    (by decide) (by decide) (by decide) (by decide) (by decide) (by decide)
    (fun _ h => nomatch h) (by decide) (by decide)

/-- C9: for a valid channel `i`, `StopChannel(i)` returns the previous current
chunk and leaves the channel with no current chunk and `playing = 0`, all else
as it was.  In a pass state where channel `i` is as `StopChannel` left it, the
channel's part of a mixing pass changes nothing at all (no mix, the stream and
the stacks as before).  And a whole mixing pass run on the mixer `StopChannel`
returns, whatever the other channels do, leaves the entry of channel `i` and
its interrupt stack (so its depth) unchanged and logs no mix and no callback
for channel `i`. -/
theorem StopChannel_then_pass (hooks : Nat → Hook) (blend : Blend) (m : Mixer) (i : Int)
    (ch : mix_channel) (fuel fuel1 : Nat) (len len1 : Int) (ps ps1 : Pass)
    (h0 : 0 ≤ i) (h1 : i < (NUM_CHANNELS : Int))
    (hch : m.channels[i.toNat]? = some ch)
    (hps : ps.channels[i.toNat]? = some { ch with chunk := none, playing := 0 })
    (hrun : MixCallback hooks blend fuel1 len1
      { m with channels := m.channels.set i.toNat { ch with chunk := none, playing := 0 } } =
        .ok ps1) :
    StopChannel i m =
        .ok ({ m with channels := m.channels.set i.toNat { ch with chunk := none, playing := 0 } },
             ch.chunk) ∧
      mixChannel hooks blend fuel len i.toNat ps = .ok ps ∧
      ps1.channels[i.toNat]? = some { ch with chunk := none, playing := 0 } ∧
      ps1.chunkstacks[i.toNat]? = m.chunkstacks[i.toNat]? ∧
      ∀ e ∈ ps1.trace, e.channel? ≠ some i.toNat := by
  have hlt : i.toNat < m.channels.length := lt_length_of_getElem? hch
  refine ⟨?_, mixChannel_paused hps rfl, ?_⟩
  · simp only [StopChannel, channelAt_of_getElem h0 h1 hch]
  · unfold MixCallback at hrun
    split at hrun
    · cases hrun
    · have h := forChannels_paused hooks blend fuel1 i.toNat len1
        { ch with chunk := none, playing := 0 } rfl
        NUM_CHANNELS 0 _ ps1 (by simp [hlt]) hrun
      refine ⟨h.1, h.2.1, fun e he => ?_⟩
      rcases h.2.2 e he with h3 | h3
      · simp at h3
      · exact h3

/-- Witness for `StopChannel_then_pass`: channel 0 plays a chunk above a stack
of one entry and is stopped; a pass of 4 bytes follows. -/
theorem StopChannel_then_pass_witness :
    StopChannel 0
        (exampleMixer [some (exampleChunk 9 0 none none)]
          { chunk := some 0, volume := 128, reserved := 1, playing := 1 } ⟨[none]⟩) =
      .ok ({ (exampleMixer [some (exampleChunk 9 0 none none)]
                { chunk := some 0, volume := 128, reserved := 1, playing := 1 } ⟨[none]⟩) with
              channels := (exampleMixer [some (exampleChunk 9 0 none none)]
                { chunk := some 0, volume := 128, reserved := 1, playing := 1 }
                ⟨[none]⟩).channels.set (0 : Int).toNat
                  { chunk := none, volume := 128, reserved := 1, playing := 0 } },
           some 0) ∧
    mixChannel noHooks exampleBlend 3 4 (0 : Int).toNat
        (examplePass [some (exampleChunk 9 0 none none)]
          { chunk := none, volume := 128, reserved := 1, playing := 0 } ⟨[none]⟩ 4) =
      .ok (examplePass [some (exampleChunk 9 0 none none)]
          { chunk := none, volume := 128, reserved := 1, playing := 0 } ⟨[none]⟩ 4) ∧
    (examplePass [some (exampleChunk 9 0 none none)]
        { chunk := none, volume := 128, reserved := 1, playing := 0 }
        ⟨[none]⟩ 4).channels[(0 : Int).toNat]? =
      some { chunk := none, volume := 128, reserved := 1, playing := 0 } ∧
    (examplePass [some (exampleChunk 9 0 none none)]
        { chunk := none, volume := 128, reserved := 1, playing := 0 }
        ⟨[none]⟩ 4).chunkstacks[(0 : Int).toNat]? =
      (exampleMixer [some (exampleChunk 9 0 none none)]
        { chunk := some 0, volume := 128, reserved := 1, playing := 1 }
        ⟨[none]⟩).chunkstacks[(0 : Int).toNat]? ∧
    ∀ e ∈ (examplePass [some (exampleChunk 9 0 none none)]
        { chunk := none, volume := 128, reserved := 1, playing := 0 } ⟨[none]⟩ 4).trace,
      e.channel? ≠ some (0 : Int).toNat :=
  StopChannel_then_pass noHooks exampleBlend
    (exampleMixer [some (exampleChunk 9 0 none none)]
      { chunk := some 0, volume := 128, reserved := 1, playing := 1 } ⟨[none]⟩)
    0 { chunk := some 0, volume := 128, reserved := 1, playing := 1 } 3 3 4 4
    (examplePass [some (exampleChunk 9 0 none none)]
      { chunk := none, volume := 128, reserved := 1, playing := 0 } ⟨[none]⟩ 4)
    (examplePass [some (exampleChunk 9 0 none none)]
      { chunk := none, volume := 128, reserved := 1, playing := 0 } ⟨[none]⟩ 4)
    (by decide) (by decide) (by decide) (by decide) (by decide)

/-- C10: for a valid channel `i` and an 8-bit volume `v`, `SetVolume(i, v)`
stores `min v MAX_VOL` as the volume of channel `i`, changes nothing else, and
returns the volume the channel had before; for `v > MAX_VOL` the stored volume
is `MAX_VOL`. -/
theorem SetVolume_clamps (m : Mixer) (i : Int) (v : Nat) (hwf : m.wf) (h0 : 0 ≤ i)
    (h1 : i < (NUM_CHANNELS : Int)) (hv : v < 256)
    (hvol : ∀ ch ∈ m.channels, ch.volume < 256) :
    ∃ ch, m.channels[i.toNat]? = some ch ∧
      SetVolume i v m =
        .ok ({ m with channels := m.channels.set i.toNat { ch with volume := min v MAX_VOL } },
             ch.volume) ∧
      (v > MAX_VOL → min v MAX_VOL = MAX_VOL) := by
  obtain ⟨ch, hch, hat⟩ := channelAt_of_valid hwf h0 h1
  have hmem : ch ∈ m.channels := List.getElem?_mem hch
  have hlt := hvol ch hmem
  refine ⟨ch, hch, ?_, fun h => by omega⟩
  have hmin : (if v % 256 > MAX_VOL then MAX_VOL else v % 256) = min v MAX_VOL := by
    rw [Nat.mod_eq_of_lt hv]
    split <;> omega
  have hret : ch.volume % 65536 = ch.volume := Nat.mod_eq_of_lt (by omega)
  simp only [SetVolume, hat, hmin, hret]

/-- Witness for `SetVolume_clamps`: volume 200 on channel 3 of the fresh table. -/
theorem SetVolume_clamps_witness :
    ∃ ch, (initialMixer []).channels[(3 : Int).toNat]? = some ch ∧
      SetVolume 3 200 (initialMixer []) =
        .ok ({ (initialMixer []) with
                channels := (initialMixer []).channels.set (3 : Int).toNat
                  { ch with volume := min 200 MAX_VOL } },
             ch.volume) ∧
      (200 > MAX_VOL → min 200 MAX_VOL = MAX_VOL) :=
  SetVolume_clamps (initialMixer []) 3 200 (initialMixer_wf []) (by decide) (by decide)
    (by decide) (by decide)

/-! ## The end-to-end scenarios of section 8, run on the whole callback -/

/-- Reserve channel 0 and play a chunk of 100 bytes on it. -/
theorem scenario_reserve_and_play :
    ReserveChannel exampleCodes 0 (initialMixer [some (exampleChunk 100 0 none none)]) =
        .ok (exampleMixer [some (exampleChunk 100 0 none none)]
              { chunk := none, volume := 128, reserved := 1, playing := 0 } ⟨[]⟩, 0) ∧
      PlayChunk 0 (some 0)
          (exampleMixer [some (exampleChunk 100 0 none none)]
            { chunk := none, volume := 128, reserved := 1, playing := 0 } ⟨[]⟩) =
        .ok (exampleMixer [some (exampleChunk 100 0 none none)]
              { chunk := some 0, volume := 128, reserved := 1, playing := 1 } ⟨[]⟩, none) :=
  ⟨rfl, rfl⟩

/-- Three passes of 40 bytes over the chunk of 100 bytes: the passes mix bytes
`[0, 40)`, `[40, 80)` and the last 20 bytes; the third leaves channel 0 without
a chunk and the last 20 bytes of its stream at zero. -/
theorem scenario_three_passes :
    MixCallback noHooks exampleBlend 2 40
        (exampleMixer [some (exampleChunk 100 0 none none)]
          { chunk := some 0, volume := 128, reserved := 1, playing := 1 } ⟨[]⟩) =
      .ok { examplePass [some (exampleChunk 100 40 none none)]
              { chunk := some 0, volume := 128, reserved := 1, playing := 1 } ⟨[]⟩ 40 with
            stream := List.replicate 40 64, trace := [Event.mix 0 0 0 0 40 128] } ∧
    MixCallback noHooks exampleBlend 2 40
        (exampleMixer [some (exampleChunk 100 40 none none)]
          { chunk := some 0, volume := 128, reserved := 1, playing := 1 } ⟨[]⟩) =
      .ok { examplePass [some (exampleChunk 100 80 none none)]
              { chunk := some 0, volume := 128, reserved := 1, playing := 1 } ⟨[]⟩ 40 with
            stream := List.replicate 40 64, trace := [Event.mix 0 0 0 40 40 128] } ∧
    MixCallback noHooks exampleBlend 2 40
        (exampleMixer [some (exampleChunk 100 80 none none)]
          { chunk := some 0, volume := 128, reserved := 1, playing := 1 } ⟨[]⟩) =
      .ok { examplePass [some (exampleChunk 100 80 none none)]
              { chunk := none, volume := 128, reserved := 1, playing := 1 } ⟨[]⟩ 40 with
            stream := List.replicate 20 64 ++ List.replicate 20 0,
            trace := [Event.mix 0 0 0 80 20 128] } :=
  ⟨rfl, rfl, rfl⟩

set_option maxHeartbeats 4000000 in
/-- A chunk of 50 bytes whose continuation is a chunk of 50 bytes, and one pass
of 100 bytes: two mixes, every byte of the stream mixed. -/
theorem scenario_chain_in_one_pass :
    MixCallback noHooks exampleBlend 2 100
        (exampleMixer
          [some (exampleChunk 50 0 none (some 1)), some (exampleChunk 50 7 none none)]
          { chunk := some 0, volume := 128, reserved := 1, playing := 1 } ⟨[]⟩) =
      .ok { examplePass
              [some (exampleChunk 50 0 none (some 1)), some (exampleChunk 50 0 none none)]
              { chunk := none, volume := 128, reserved := 1, playing := 1 } ⟨[]⟩ 100 with
            stream := List.replicate 100 64,
            trace := [Event.mix 0 0 0 0 50 128, Event.mix 0 50 1 0 50 128] } :=
  rfl

/-! ## More claims about the control functions -/

/-- C11: for a valid channel `i` and a chunk `a` (contents `c`),
`PlayChunk(i, a)` returns the channel's previous current chunk, makes `a` the
current chunk, sets its cursor to 0 and `playing` to 1.  The channel keeps its
volume and reserved flag, every other channel, every stack and every other
chunk is as before, and of chunk `a` only the cursor changes. -/
theorem PlayChunk_effect (m : Mixer) (i : Int) (ch : mix_channel) (a : Nat) (c : mix_chunk)
    (h0 : 0 ≤ i) (h1 : i < (NUM_CHANNELS : Int))
    (hch : m.channels[i.toNat]? = some ch) (hc : readChunk m.heap a = some c) :
    ∃ m1, PlayChunk i (some a) m = .ok (m1, ch.chunk) ∧
      m1.channels[i.toNat]? =
        some { chunk := some a, volume := ch.volume, reserved := ch.reserved, playing := 1 } ∧
      (∀ k, k ≠ i.toNat → m1.channels[k]? = m.channels[k]?) ∧
      m1.chunkstacks = m.chunkstacks ∧
      readChunk m1.heap a = some { c with bufpos := 0 } ∧
      (∀ b, b ≠ a → readChunk m1.heap b = readChunk m.heap b) := by
  have hlt : i.toNat < m.channels.length := lt_length_of_getElem? hch
  refine ⟨{ heap := writeChunk m.heap a { c with bufpos := 0 },
            channels := m.channels.set i.toNat { ch with chunk := some a, playing := 1 },
            chunkstacks := m.chunkstacks }, ?_, ?_, ?_, rfl, ?_, ?_⟩
  · simp only [PlayChunk, channelAt_of_getElem h0 h1 hch, hc]
  · simp [hlt]
  · intro k hk
    simp [List.getElem?_set_ne (Ne.symm hk)]
  · exact readChunk_writeChunk_same _ (lt_length_of_readChunk hc)
  · intro b hb
    exact readChunk_writeChunk_ne _ (Ne.symm hb)

/-- Witness for `PlayChunk_effect`: a chunk at cursor 5 is played on channel 0,
which was playing another chunk. -/
theorem PlayChunk_effect_witness :
    ∃ m1, PlayChunk 0 (some 1)
        (exampleMixer [some (exampleChunk 9 2 none none), some (exampleChunk 9 5 none none)]
          { chunk := some 0, volume := 100, reserved := 1, playing := 0 } ⟨[none]⟩) =
        .ok (m1, ({ chunk := some 0, volume := 100, reserved := 1, playing := 0 } :
          mix_channel).chunk) ∧
      m1.channels[(0 : Int).toNat]? =
        some { chunk := some 1,
               volume := ({ chunk := some 0, volume := 100, reserved := 1, playing := 0 } :
                 mix_channel).volume,
               reserved := ({ chunk := some 0, volume := 100, reserved := 1, playing := 0 } :
                 mix_channel).reserved,
               playing := 1 } ∧
      (∀ k, k ≠ (0 : Int).toNat → m1.channels[k]? =
        (exampleMixer [some (exampleChunk 9 2 none none), some (exampleChunk 9 5 none none)]
          { chunk := some 0, volume := 100, reserved := 1, playing := 0 }
          ⟨[none]⟩).channels[k]?) ∧
      m1.chunkstacks =
        (exampleMixer [some (exampleChunk 9 2 none none), some (exampleChunk 9 5 none none)]
          { chunk := some 0, volume := 100, reserved := 1, playing := 0 }
          ⟨[none]⟩).chunkstacks ∧
      readChunk m1.heap 1 = some { exampleChunk 9 5 none none with bufpos := 0 } ∧
      (∀ b, b ≠ 1 → readChunk m1.heap b =
        readChunk
          (exampleMixer [some (exampleChunk 9 2 none none), some (exampleChunk 9 5 none none)]
            { chunk := some 0, volume := 100, reserved := 1, playing := 0 } ⟨[none]⟩).heap b) :=
  PlayChunk_effect
    (exampleMixer [some (exampleChunk 9 2 none none), some (exampleChunk 9 5 none none)]
      { chunk := some 0, volume := 100, reserved := 1, playing := 0 } ⟨[none]⟩)
    0 { chunk := some 0, volume := 100, reserved := 1, playing := 0 } 1
    (exampleChunk 9 5 none none) (by decide) (by decide) (by decide) (by decide)

/-- C12 (the code at the failing input): chunk 0 is at cursor 5 and channel 0
is fresh.  `SetChunk(0, chunk 0)` and `PlayChunk(0, chunk 0)` return the same
old chunk and leave the same channel table (both with `playing = 1`), but
`SetChunk` leaves the cursor at 5 where `PlayChunk` sets it to 0. -/
theorem SetChunk_keeps_cursor :
    ∃ m1 m2,
      SetChunk 0 (some 0) (initialMixer [some (exampleChunk 9 5 none none)]) = .ok (m1, none) ∧
      PlayChunk 0 (some 0) (initialMixer [some (exampleChunk 9 5 none none)]) = .ok (m2, none) ∧
      m1.channels = m2.channels ∧
      m1.channels[0]? = some { chunk := some 0, volume := 128, reserved := 0, playing := 1 } ∧
      readChunk m1.heap 0 = some (exampleChunk 9 5 none none) ∧
      readChunk m2.heap 0 = some (exampleChunk 9 0 none none) :=
  ⟨_, _, rfl, rfl, rfl, rfl, rfl, rfl⟩

/-- C14: for a valid channel `i` that is not reserved, `ReserveChannel(i)`
returns `i` and sets `reserved` to 1, changing nothing else; a second
`ReserveChannel(i)` returns `rSORRY` and changes nothing. -/
theorem ReserveChannel_twice (rc : RetCodes) (m : Mixer) (i : Int) (ch : mix_channel)
    (h0 : 0 ≤ i) (h1 : i < (NUM_CHANNELS : Int))
    (hch : m.channels[i.toNat]? = some ch) (hfree : ch.reserved = 0) :
    ReserveChannel rc i m =
        .ok ({ m with channels := m.channels.set i.toNat { ch with reserved := 1 } }, i) ∧
      ReserveChannel rc i
          { m with channels := m.channels.set i.toNat { ch with reserved := 1 } } =
        .ok ({ m with channels := m.channels.set i.toNat { ch with reserved := 1 } },
             rc.rSORRY) := by
  have hlt : i.toNat < m.channels.length := lt_length_of_getElem? hch
  have hge : ¬ (i ≥ (NUM_CHANNELS : Int)) := by omega
  have hch1 : ({ m with channels := m.channels.set i.toNat { ch with reserved := 1 } } :
      Mixer).channels[i.toNat]? = some { ch with reserved := 1 } := by
    simp [hlt]
  refine ⟨?_, ?_⟩
  · simp only [ReserveChannel, if_neg hge, channelAt_of_getElem h0 h1 hch]
    simp [hfree]
  · simp only [ReserveChannel, if_neg hge, channelAt_of_getElem h0 h1 hch1]
    simp

/-- Witness for `ReserveChannel_twice`: channel 3 of the fresh table. -/
theorem ReserveChannel_twice_witness :
    ReserveChannel exampleCodes 3 (initialMixer []) =
        .ok ({ (initialMixer []) with
                channels := (initialMixer []).channels.set (3 : Int).toNat
                  { freshChannel with reserved := 1 } }, 3) ∧
      ReserveChannel exampleCodes 3
          { (initialMixer []) with
              channels := (initialMixer []).channels.set (3 : Int).toNat
                { freshChannel with reserved := 1 } } =
        .ok ({ (initialMixer []) with
                channels := (initialMixer []).channels.set (3 : Int).toNat
                  { freshChannel with reserved := 1 } },
             exampleCodes.rSORRY) :=
  ReserveChannel_twice exampleCodes (initialMixer []) 3 freshChannel (by decide) (by decide)
    (by decide) (by decide)

/-- C16 (the code at the failing input): on the fresh table, where all 16
channels are unreserved, `ReserveAnyChannel` reserves channel 0, goes on,
reserves channel 1 as well and returns 1.  On a table where channel 0 is the
only unreserved channel it reserves channel 0 and returns `rSORRY`. -/
theorem ReserveAnyChannel_claims_two (rc : RetCodes) (heap : Heap) :
    ReserveAnyChannel rc (initialMixer heap) =
        .ok ({ heap := heap,
               channels := { freshChannel with reserved := 1 } ::
                 { freshChannel with reserved := 1 } :: List.replicate 14 freshChannel,
               chunkstacks := List.replicate NUM_CHANNELS { items := [] } }, 1) ∧
      ReserveAnyChannel rc
          { heap := heap,
            channels := freshChannel :: List.replicate 15 { freshChannel with reserved := 1 },
            chunkstacks := List.replicate NUM_CHANNELS { items := [] } } =
        .ok ({ heap := heap,
               channels := List.replicate NUM_CHANNELS { freshChannel with reserved := 1 },
               chunkstacks := List.replicate NUM_CHANNELS { items := [] } }, rc.rSORRY) :=
  ⟨rfl, rfl⟩

/-- Counterexample to C15: `PauseChannel(16)` on the fresh table does not
return `rBADARG` with the table unchanged; it indexes `channels[16]`. -/
theorem PauseChannel_out_of_range :
    PauseChannel exampleCodes 16 (initialMixer []) = .undefined ∧
      PauseChannel exampleCodes 16 (initialMixer []) ≠
        .ok (initialMixer [], exampleCodes.rBADARG) := by
  decide

/-- C15, amended: for `id ≥ NUM_CHANNELS`, `ReserveChannel(id)` returns
`rBADARG` and changes nothing.  `InterruptChunk`, `PauseChannel` and
`PlayChannel` check no range: for an id outside `[0, NUM_CHANNELS)` they index
the channel arrays out of bounds, which has no defined result, and whenever
they do return, the code is `rSUCCESS`. -/
theorem range_checks (rc : RetCodes) (m : Mixer) (chunk : Ptr) (id id1 : Int)
    (hid : (NUM_CHANNELS : Int) ≤ id) (hid1 : id1 < 0 ∨ (NUM_CHANNELS : Int) ≤ id1) :
    ReserveChannel rc id m = .ok (m, rc.rBADARG) ∧
      InterruptChunk rc id1 chunk m = .undefined ∧
      PauseChannel rc id1 m = .undefined ∧
      PlayChannel rc id1 m = .undefined ∧
      ∀ (id2 : Int) (m1 : Mixer) (r : Int),
        InterruptChunk rc id2 chunk m = .ok (m1, r) ∨ PauseChannel rc id2 m = .ok (m1, r) ∨
          PlayChannel rc id2 m = .ok (m1, r) → r = rc.rSUCCESS := by
  have hnone : channelAt m id1 = none := by
    have : chanIndex id1 = none := by
      unfold chanIndex
      rw [if_neg (by omega)]
    simp [channelAt, this]
  refine ⟨?_, ?_, ?_, ?_, ?_⟩
  · simp only [ReserveChannel, if_pos (show id ≥ (NUM_CHANNELS : Int) from hid)]
  · simp only [InterruptChunk, hnone]
  · simp only [PauseChannel, hnone]
  · simp only [PlayChannel, hnone]
  · intro id2 m1 r h
    rcases h with h | h | h
    · unfold InterruptChunk at h
      split at h
      · cases h
      · split at h
        · cases h
        · simp only [Outcome.ok.injEq, Prod.mk.injEq] at h
          exact h.2.symm
    · unfold PauseChannel at h
      split at h
      · cases h
      · simp only [Outcome.ok.injEq, Prod.mk.injEq] at h
        exact h.2.symm
    · unfold PlayChannel at h
      split at h
      · cases h
      · simp only [Outcome.ok.injEq, Prod.mk.injEq] at h
        exact h.2.symm

/-- Witness for `range_checks`: ids 16 and -1 on the fresh table. -/
theorem range_checks_witness :
    ReserveChannel exampleCodes 16 (initialMixer []) =
        .ok (initialMixer [], exampleCodes.rBADARG) ∧
      InterruptChunk exampleCodes (-1) none (initialMixer []) = .undefined ∧
      PauseChannel exampleCodes (-1) (initialMixer []) = .undefined ∧
      PlayChannel exampleCodes (-1) (initialMixer []) = .undefined ∧
      ∀ (id2 : Int) (m1 : Mixer) (r : Int),
        InterruptChunk exampleCodes id2 none (initialMixer []) = .ok (m1, r) ∨
          PauseChannel exampleCodes id2 (initialMixer []) = .ok (m1, r) ∨
          PlayChannel exampleCodes id2 (initialMixer []) = .ok (m1, r) →
        r = exampleCodes.rSUCCESS :=
  range_checks exampleCodes (initialMixer []) none 16 (-1) (by decide) (by decide)

/-- The loop of `FindFreeChannel` from index `s` finds the least unreserved
index from `s` on, or runs to the end and gives `NUM_CHANNELS`. -/
theorem FindFreeChannelFrom_least (m : Mixer) (hlen : NUM_CHANNELS ≤ m.channels.length) :
    ∀ (n s : Nat), s + n = NUM_CHANNELS →
      ∃ r : Nat, FindFreeChannelFrom m n s = .ok (r : Int) ∧ s ≤ r ∧ r ≤ NUM_CHANNELS ∧
        (∀ j, s ≤ j → j < r → ∃ c, m.channels[j]? = some c ∧ c.reserved ≠ 0) ∧
        (r = NUM_CHANNELS ∨ ∃ c, m.channels[r]? = some c ∧ c.reserved = 0) := by
  intro n
  induction n with
  | zero =>
    intro s hs
    refine ⟨NUM_CHANNELS, ?_, by omega, le_refl _, fun j h1 h2 => by omega, Or.inl rfl⟩
    rw [FindFreeChannelFrom]
  | succ n ih =>
    intro s hs
    have hlt : s < m.channels.length := by omega
    have hget : m.channels[s]? = some m.channels[s] := List.getElem?_eq_getElem hlt
    by_cases hres : (m.channels[s]).reserved = 0
    · refine ⟨s, ?_, le_refl _, by omega, fun j h1 h2 => by omega, Or.inr ⟨_, hget, hres⟩⟩
      rw [FindFreeChannelFrom]
      simp [hget, hres]
    · obtain ⟨r, hr, h1, h2, h3, h4⟩ := ih (s + 1) (by omega)
      refine ⟨r, ?_, by omega, h2, ?_, h4⟩
      · rw [FindFreeChannelFrom]
        simp [hget, hres, hr]
      · intro j hj1 hj2
        by_cases hjs : j = s
        · subst hjs
          exact ⟨_, hget, hres⟩
        · exact h3 j (by omega) hj2

/-- C17: on a table of `NUM_CHANNELS` channels `FindFreeChannel` returns the
least index whose channel has `reserved = 0` (every channel below it is
reserved), or `NUM_CHANNELS` when every channel is reserved.  It only reads the
table: its result is a number, there is no new state. -/
theorem FindFreeChannel_least (m : Mixer) (hwf : m.wf) :
    ∃ r : Nat, FindFreeChannel m = .ok (r : Int) ∧ r ≤ NUM_CHANNELS ∧
      (∀ j, j < r → ∃ c, m.channels[j]? = some c ∧ c.reserved ≠ 0) ∧
      (r = NUM_CHANNELS ∨ ∃ c, m.channels[r]? = some c ∧ c.reserved = 0) := by
  obtain ⟨r, hr, _, h2, h3, h4⟩ :=
    FindFreeChannelFrom_least m (le_of_eq hwf.1.symm) NUM_CHANNELS 0 (by omega)
  exact ⟨r, hr, h2, fun j hj => h3 j (Nat.zero_le _) hj, h4⟩

/-- Witness for `FindFreeChannel_least`: the fresh table. -/
theorem FindFreeChannel_least_witness :
    ∃ r : Nat, FindFreeChannel (initialMixer []) = .ok (r : Int) ∧ r ≤ NUM_CHANNELS ∧
      (∀ j, j < r → ∃ c, (initialMixer []).channels[j]? = some c ∧ c.reserved ≠ 0) ∧
      (r = NUM_CHANNELS ∨ ∃ c, (initialMixer []).channels[r]? = some c ∧ c.reserved = 0) :=
  FindFreeChannel_least (initialMixer []) (initialMixer_wf [])

/-- C13 (the code at the failing input): channel 0 plays chunk 1 (5 bytes)
whose callback returns chunk 0, a chunk of 9 bytes at cursor 3, in a pass of 8
bytes.  The callback runs once, chunk 0 becomes current, and the pass goes on
mixing from byte 3 of chunk 0, not from byte 0: the cursor is not reset. -/
theorem hook_chunk_keeps_cursor :
    mixChannel (hookReturns (some 0)) exampleBlend 2 8 0
        (examplePass
          [some { buf := [10, 20, 30, 40, 50, 60, 70, 80, 90], buflen := 9,
                  deallocate_buf := 0, deallocate_me := 0, bufpos := 3,
                  callback := none, nextChunk := none },
           some (exampleChunk 5 0 (some 0) none)]
          { chunk := some 1, volume := 128, reserved := 1, playing := 1 } ⟨[]⟩ 8) =
      .ok { heap :=
              [some { buf := [10, 20, 30, 40, 50, 60, 70, 80, 90], buflen := 9,
                      deallocate_buf := 0, deallocate_me := 0, bufpos := 6,
                      callback := none, nextChunk := none },
               some (exampleChunk 5 0 (some 0) none)],
            channels := { chunk := some 0, volume := 128, reserved := 1, playing := 1 } ::
              List.replicate 15 freshChannel,
            chunkstacks := List.replicate 16 { items := [] },
            stream := [64, 64, 64, 64, 64, 40, 50, 60],
            trace := [Event.mix 0 0 1 0 5 128, Event.callback 0 1, Event.mix 0 5 0 3 3 128] } :=
  rfl

/-! ## The heap through a pass -/

theorem readChunk_freeChunk_same (h : Heap) (a : Nat) : readChunk (freeChunk h a) a = none := by
  unfold readChunk freeChunk
  rcases Nat.lt_or_ge a h.length with hlt | hge
  · simp [hlt]
  · rw [List.getElem?_eq_none (by simpa using hge)]

theorem runCallback_heapStep (hooks : Nat → Hook) (i a : Nat) (cur : mix_chunk) (h : Heap) :
    HeapStep hooks h (runCallback hooks i a cur h).1 := by
  unfold runCallback
  cases cur.callback with
  | none => exact HeapStep.same h
  | some f => exact HeapStep.hook h f i a

theorem releaseChunk_heapStep (hooks : Nat → Hook) (a : Nat) (cur : mix_chunk) (ps : Pass)
    (hr : readChunk ps.heap a = some cur) :
    HeapStep hooks ps.heap (releaseChunk a cur ps).heap := by
  unfold releaseChunk
  dsimp only
  by_cases h1 : cur.deallocate_buf ≠ 0 <;> by_cases h2 : cur.deallocate_me ≠ 0
  · rw [if_pos h2, if_pos h1]
    exact HeapStep.seq _ _ _ (HeapStep.freeBuf _ _ _ hr) (HeapStep.freeObj _ _)
  · rw [if_neg h2, if_pos h1]
    exact HeapStep.freeBuf _ _ _ hr
  · rw [if_pos h2, if_neg h1]
    exact HeapStep.freeObj _ _
  · rw [if_neg h2, if_neg h1]
    exact HeapStep.same _

theorem chunkEnd_run {hooks : Nat → Hook} {i : Nat} {ch : mix_channel} {a : Nat}
    {cur : mix_chunk} {n : Int} {st st1 : Loop} {b : Bool}
    (h : chunkEnd hooks i ch a cur n st = .ok (st1, b)) :
    b = true ∧ HeapStep hooks st.ps.heap st1.ps.heap ∧ st1.bytestogo = st.bytestogo ∧
      st1.streampos = st.streampos + n := by
  have hcb := runCallback_heapStep hooks i a cur st.ps.heap
  unfold chunkEnd at h
  simp only at h
  split at h
  · cases h
    exact ⟨rfl, hcb, rfl, rfl⟩
  · split at h
    · cases h
    · rename_i cur1 hcur1
      split at h
      · split at h
        · cases h
        · rename_i nc hnc
          cases h
          exact ⟨rfl, HeapStep.seq _ _ _ hcb (HeapStep.rewind _ _ _ hnc), rfl, rfl⟩
      · split at h
        · cases h
        · split at h
          · split at h
            · cases h
            · cases h
              refine ⟨rfl, HeapStep.seq _ _ _ hcb ?_, rfl, rfl⟩
              exact releaseChunk_heapStep hooks a cur1 { heap := _, channels := _, chunkstacks := _, stream := _, trace := _ } hcur1
          · cases h
            refine ⟨rfl, HeapStep.seq _ _ _ hcb ?_, rfl, rfl⟩
            exact releaseChunk_heapStep hooks a cur1 { heap := _, channels := _, chunkstacks := _, stream := _, trace := _ } hcur1

/-- The three ways a run of the loop body ends: no chunk (break), more left in
the chunk than asked for (break), or the chunk exhausted (the loop goes on). -/
theorem loopBody_run {hooks : Nat → Hook} {blend : Blend} {i : Nat} {st st1 : Loop} {b : Bool}
    (hgo : 0 < st.bytestogo) (h : loopBody hooks blend i st = .ok (st1, b)) :
    HeapStep hooks st.ps.heap st1.ps.heap ∧
      ((b = false ∧ st1 = st ∧ ∃ ch, st.ps.channels[i]? = some ch ∧ ch.chunk = none) ∨
       (b = false ∧ st1.bytestogo = 0 ∧ st1.streampos = st.streampos ∧
          st1.ps.channels = st.ps.channels ∧
          ∃ ch a cur, st.ps.channels[i]? = some ch ∧ ch.chunk = some a ∧
            readChunk st.ps.heap a = some cur ∧ st.bytestogo < cur.buflen - cur.bufpos) ∨
       (b = true ∧
          ∃ ch a cur, st.ps.channels[i]? = some ch ∧ ch.chunk = some a ∧
            readChunk st.ps.heap a = some cur ∧ cur.buflen - cur.bufpos ≤ st.bytestogo ∧
            st1.bytestogo = st.bytestogo - (cur.buflen - cur.bufpos) ∧
            st1.streampos = st.streampos + (cur.buflen - cur.bufpos))) := by
  unfold loopBody at h
  split at h
  · cases h
  · rename_i ch hch
    split at h
    · rename_i hnull
      cases h
      exact ⟨HeapStep.same _, Or.inl ⟨rfl, rfl, ch, hch, hnull⟩⟩
    · rename_i a hsome
      split at h
      · cases h
      · rename_i cur hcur
        simp only at h
        split at h
        · rename_i hgt
          split at h
          · cases h
          · cases h
            exact ⟨HeapStep.advance _ _ _ _ hcur hgo hgt,
              Or.inr (Or.inl ⟨rfl, rfl, rfl, rfl, ch, a, cur, hch, hsome, hcur, hgt⟩)⟩
        · rename_i hngt
          split at h
          · rename_i heq
            split at h
            · cases h
            · obtain ⟨hb, hstep, hbg, hsp⟩ := chunkEnd_run h
              refine ⟨hstep, Or.inr (Or.inr ⟨hb, ch, a, cur, hch, hsome, hcur, by omega, ?_, hsp⟩)⟩
              rw [hbg]
              simp only
              omega
          · split at h
            · cases h
            · obtain ⟨hb, hstep, hbg, hsp⟩ := chunkEnd_run h
              refine ⟨hstep, Or.inr (Or.inr ⟨hb, ch, a, cur, hch, hsome, hcur, by omega, ?_, hsp⟩)⟩
              rw [hbg]

theorem whileLoop_heapStep {hooks : Nat → Hook} {blend : Blend} {i : Nat} :
    ∀ (fuel : Nat) (st st1 : Loop), whileLoop hooks blend fuel i st = .ok st1 →
      HeapStep hooks st.ps.heap st1.ps.heap := by
  intro fuel
  induction fuel with
  | zero =>
    intro st st1 h
    rw [whileLoop] at h
    split at h
    · cases h
    · cases h; exact HeapStep.same _
  | succ n ih =>
    intro st st1 h
    rw [whileLoop] at h
    split at h
    · rename_i hgo
      split at h
      · rename_i st2 hb
        exact HeapStep.seq _ _ _ (loopBody_run hgo hb).1 (ih _ _ h)
      · rename_i st2 hb
        cases h
        exact (loopBody_run hgo hb).1
      · cases h
      · cases h
    · cases h; exact HeapStep.same _

theorem mixChannel_heapStep {hooks : Nat → Hook} {blend : Blend} {fuel i : Nat} {len : Int}
    {ps ps1 : Pass} (h : mixChannel hooks blend fuel len i ps = .ok ps1) :
    HeapStep hooks ps.heap ps1.heap := by
  unfold mixChannel at h
  split at h
  · cases h
  · split at h
    · cases h; exact HeapStep.same _
    · split at h
      · rename_i st hloop
        cases h
        exact whileLoop_heapStep _ _ _ hloop
      · cases h
      · cases h

theorem forChannels_heapStep {hooks : Nat → Hook} {blend : Blend} {fuel : Nat} {len : Int} :
    ∀ (n s : Nat) (ps ps1 : Pass), forChannels hooks blend fuel len n s ps = .ok ps1 →
      HeapStep hooks ps.heap ps1.heap := by
  intro n
  induction n with
  | zero =>
    intro s ps ps1 h
    rw [forChannels] at h
    cases h
    exact HeapStep.same _
  | succ n ih =>
    intro s ps ps1 h
    rw [forChannels] at h
    split at h
    · rename_i ps2 hmix
      exact HeapStep.seq _ _ _ (mixChannel_heapStep hmix) (ih _ _ _ h)
    · cases h
    · cases h

/-- What a whole mixing pass does to the chunk objects is a sequence of heap
steps. -/
theorem MixCallback_heapStep {hooks : Nat → Hook} {blend : Blend} {fuel : Nat} {len : Int}
    {m : Mixer} {ps : Pass} (h : MixCallback hooks blend fuel len m = .ok ps) :
    HeapStep hooks m.heap ps.heap := by
  unfold MixCallback at h
  split at h
  · cases h
  · exact forChannels_heapStep _ _ _ _ h

/-- Heap steps keep the cursor bound on any set of addresses on which the
callbacks keep it. -/
theorem HeapStep_cursorBound {hooks : Nat → Hook} {S : Nat → Prop}
    (hhooks : ∀ f j a h, cursorBound S h → cursorBound S (hooks f j a h).1)
    {h h1 : Heap} (hstep : HeapStep hooks h h1) (hS : cursorBound S h) : cursorBound S h1 := by
  induction hstep with
  | same h => exact hS
  | advance h a c n hr hn0 hn1 =>
    intro b cb hb hrb
    by_cases hab : a = b
    · subst hab
      rw [readChunk_writeChunk_same _ (lt_length_of_readChunk hr)] at hrb
      cases hrb
      have := hS a c hb hr
      simp only
      omega
    · rw [readChunk_writeChunk_ne _ hab] at hrb
      exact hS b cb hb hrb
  | rewind h a c hr =>
    intro b cb hb hrb
    by_cases hab : a = b
    · subst hab
      rw [readChunk_writeChunk_same _ (lt_length_of_readChunk hr)] at hrb
      cases hrb
      have := hS a c hb hr
      simp only
      omega
    · rw [readChunk_writeChunk_ne _ hab] at hrb
      exact hS b cb hb hrb
  | freeBuf h a c hr =>
    intro b cb hb hrb
    by_cases hab : a = b
    · subst hab
      rw [readChunk_writeChunk_same _ (lt_length_of_readChunk hr)] at hrb
      cases hrb
      exact hS a c hb hr
    · rw [readChunk_writeChunk_ne _ hab] at hrb
      exact hS b cb hb hrb
  | freeObj h a =>
    intro b cb hb hrb
    by_cases hab : a = b
    · subst hab
      rw [readChunk_freeChunk_same] at hrb
      cases hrb
    · rw [readChunk_freeChunk_ne hab] at hrb
      exact hS b cb hb hrb
  | hook h f i a => exact hhooks f i a h hS
  | seq h1 h2 h3 _ _ ih1 ih2 => exact ih2 (ih1 hS)

/-- Heap steps keep every chunk with a byte beyond its cursor, if the callbacks
do. -/
theorem HeapStep_bytesLeft {hooks : Nat → Hook}
    (hhooks : ∀ f j a h, bytesLeft h → bytesLeft (hooks f j a h).1)
    {h h1 : Heap} (hstep : HeapStep hooks h h1) (hS : bytesLeft h) : bytesLeft h1 := by
  induction hstep with
  | same h => exact hS
  | advance h a c n hr hn0 hn1 =>
    intro b cb hrb
    by_cases hab : a = b
    · subst hab
      rw [readChunk_writeChunk_same _ (lt_length_of_readChunk hr)] at hrb
      cases hrb
      have := hS a c hr
      simp only
      omega
    · rw [readChunk_writeChunk_ne _ hab] at hrb
      exact hS b cb hrb
  | rewind h a c hr =>
    intro b cb hrb
    by_cases hab : a = b
    · subst hab
      rw [readChunk_writeChunk_same _ (lt_length_of_readChunk hr)] at hrb
      cases hrb
      have := hS a c hr
      simp only
      omega
    · rw [readChunk_writeChunk_ne _ hab] at hrb
      exact hS b cb hrb
  | freeBuf h a c hr =>
    intro b cb hrb
    by_cases hab : a = b
    · subst hab
      rw [readChunk_writeChunk_same _ (lt_length_of_readChunk hr)] at hrb
      cases hrb
      exact hS a c hr
    · rw [readChunk_writeChunk_ne _ hab] at hrb
      exact hS b cb hrb
  | freeObj h a =>
    intro b cb hrb
    by_cases hab : a = b
    · subst hab
      rw [readChunk_freeChunk_same] at hrb
      cases hrb
    · rw [readChunk_freeChunk_ne hab] at hrb
      exact hS b cb hrb
  | hook h f i a => exact hhooks f i a h hS
  | seq h1 h2 h3 _ _ ih1 ih2 => exact ih2 (ih1 hS)

theorem chunkEnd_ne_outOfFuel {hooks : Nat → Hook} {i : Nat} {ch : mix_channel} {a : Nat}
    {cur : mix_chunk} {n : Int} {st : Loop} :
    chunkEnd hooks i ch a cur n st ≠ .outOfFuel := by
  intro h
  unfold chunkEnd at h
  simp only at h
  repeat' split at h
  all_goals cases h

theorem loopBody_ne_outOfFuel {hooks : Nat → Hook} {blend : Blend} {i : Nat} {st : Loop} :
    loopBody hooks blend i st ≠ .outOfFuel := by
  intro h
  unfold loopBody at h
  simp only at h
  repeat' split at h
  all_goals first
    | cases h
    | exact chunkEnd_ne_outOfFuel h

theorem mem_of_readChunk {h : Heap} {a : Nat} {c : mix_chunk}
    (hr : readChunk h a = some c) : some c ∈ h := by
  unfold readChunk at hr
  split at hr
  · rename_i c1 hget
    cases hr
    exact List.getElem?_mem hget
  · cases hr

/-- The cursor bound holds on every set of addresses when every cell of the
heap has it. -/
theorem cursorBound_of_cells (S : Nat → Prop) {h : Heap}
    (hall : ∀ x ∈ h, ∀ c, x = some c → 0 ≤ c.bufpos ∧ c.bufpos ≤ c.buflen) :
    cursorBound S h :=
  fun _ c _ hr => hall (some c) (mem_of_readChunk hr) c rfl

theorem bytesLeft_of_cells {h : Heap}
    (hall : ∀ x ∈ h, ∀ c, x = some c → 0 ≤ c.bufpos ∧ c.bufpos < c.buflen) :
    bytesLeft h :=
  fun _ c hr => hall (some c) (mem_of_readChunk hr) c rfl

/-! ## Claims about the cursor bound and termination -/

/-- C19: let the cursor bound `0 ≤ bufpos ≤ buflen` hold for the chunks at the
addresses in `S` (any set: the chunks in play), and let the callbacks keep it.
Then it holds for them after every `PlayChunk`, `SetChunk`, `InterruptChunk`
and `StopChannel` that returns, and after every mixing pass that returns, of
any length. -/
theorem cursor_bound_kept (hooks : Nat → Hook) (blend : Blend) (rc : RetCodes)
    (S : Nat → Prop) (m : Mixer) (hS : cursorBound S m.heap)
    (hhooks : ∀ f j a h, cursorBound S h → cursorBound S (hooks f j a h).1) :
    (∀ i c m1 r, PlayChunk i c m = .ok (m1, r) → cursorBound S m1.heap) ∧
      (∀ i c m1 r, SetChunk i c m = .ok (m1, r) → cursorBound S m1.heap) ∧
      (∀ i c m1 r, InterruptChunk rc i c m = .ok (m1, r) → cursorBound S m1.heap) ∧
      (∀ i m1 r, StopChannel i m = .ok (m1, r) → cursorBound S m1.heap) ∧
      (∀ fuel len ps, MixCallback hooks blend fuel len m = .ok ps → cursorBound S ps.heap) := by
  refine ⟨?_, ?_, ?_, ?_, ?_⟩
  · intro i c m1 r h
    unfold PlayChunk at h
    split at h
    · cases h
    · split at h
      · cases h
      · split at h
        · cases h
        · rename_i a cc hcc
          cases h
          exact HeapStep_cursorBound hhooks (HeapStep.rewind _ _ _ hcc) hS
  · intro i c m1 r h
    unfold SetChunk at h
    split at h
    · cases h
    · cases h
      exact hS
  · intro i c m1 r h
    unfold InterruptChunk at h
    split at h
    · cases h
    · split at h
      · cases h
      · cases h
        exact hS
  · intro i m1 r h
    unfold StopChannel at h
    split at h
    · cases h
    · cases h
      exact hS
  · intro fuel len ps h
    exact HeapStep_cursorBound hhooks (MixCallback_heapStep h) hS

/-- Witness for `cursor_bound_kept`: a mixer whose channel 0 plays a chunk of 9
bytes at cursor 5, with hooks that do nothing.  The bound holds at the start,
after `PlayChunk(0, chunk)` (cursor 0) and after a pass of 2 bytes (cursor 7). -/
theorem cursor_bound_kept_witness :
    cursorBound (fun _ => True)
        (exampleMixer [some (exampleChunk 9 5 none none)]
          { chunk := some 0, volume := 128, reserved := 1, playing := 1 } ⟨[]⟩).heap ∧
      (PlayChunk 0 (some 0)
            (exampleMixer [some (exampleChunk 9 5 none none)]
              { chunk := some 0, volume := 128, reserved := 1, playing := 1 } ⟨[]⟩) =
          .ok (exampleMixer [some (exampleChunk 9 0 none none)]
              { chunk := some 0, volume := 128, reserved := 1, playing := 1 } ⟨[]⟩, some 0) ∧
        cursorBound (fun _ => True)
          (exampleMixer [some (exampleChunk 9 0 none none)]
            { chunk := some 0, volume := 128, reserved := 1, playing := 1 } ⟨[]⟩).heap) ∧
      (MixCallback noHooks exampleBlend 4 2
            (exampleMixer [some (exampleChunk 9 5 none none)]
              { chunk := some 0, volume := 128, reserved := 1, playing := 1 } ⟨[]⟩) =
          .ok { heap := [some (exampleChunk 9 7 none none)],
                channels := { chunk := some 0, volume := 128, reserved := 1, playing := 1 } ::
                  List.replicate 15 freshChannel,
                chunkstacks := { items := [] } :: List.replicate 15 { items := [] },
                stream := [64, 64],
                trace := [Event.mix 0 0 0 5 2 128] } ∧
        cursorBound (fun _ => True) [some (exampleChunk 9 7 none none)]) :=
  have h := cursor_bound_kept noHooks exampleBlend exampleCodes (fun _ => True)
    (exampleMixer [some (exampleChunk 9 5 none none)]
      { chunk := some 0, volume := 128, reserved := 1, playing := 1 } ⟨[]⟩)
    (cursorBound_of_cells _ (by decide)) (fun _ _ _ _ hh => hh)
  ⟨cursorBound_of_cells _ (by decide),
    ⟨rfl, h.1 0 (some 0)
      (exampleMixer [some (exampleChunk 9 0 none none)]
        { chunk := some 0, volume := 128, reserved := 1, playing := 1 } ⟨[]⟩) (some 0) rfl⟩,
    ⟨rfl, h.2.2.2.2 4 2
      { heap := [some (exampleChunk 9 7 none none)],
        channels := { chunk := some 0, volume := 128, reserved := 1, playing := 1 } ::
          List.replicate 15 freshChannel,
        chunkstacks := { items := [] } :: List.replicate 15 { items := [] },
        stream := [64, 64],
        trace := [Event.mix 0 0 0 5 2 128] } rfl⟩⟩

/-- A chunk of length 0 whose continuation is the chunk itself: every run of
the loop body mixes 0 bytes and installs the same chunk again. -/
theorem empty_self_loop_spins :
    ∀ (fuel : Nat) (log : List Event),
      whileLoop noHooks exampleBlend fuel 0
          ⟨{ heap := [some { buf := [], buflen := 0, deallocate_buf := 0, deallocate_me := 0,
                              bufpos := 0, callback := none, nextChunk := some 0 }],
             channels := { chunk := some 0, volume := 128, reserved := 1, playing := 1 } ::
               List.replicate 15 freshChannel,
             chunkstacks := List.replicate 16 { items := [] },
             stream := [0, 0, 0, 0],
             trace := log }, 0, 4⟩ =
        .outOfFuel := by
  intro fuel
  induction fuel with
  | zero =>
    intro log
    rfl
  | succ n ih =>
    intro log
    have hb := loopBody_exhaust_next noHooks exampleBlend 0
      ⟨{ heap := [some { buf := [], buflen := 0, deallocate_buf := 0, deallocate_me := 0,
                          bufpos := 0, callback := none, nextChunk := some 0 }],
         channels := { chunk := some 0, volume := 128, reserved := 1, playing := 1 } ::
           List.replicate 15 freshChannel,
         chunkstacks := List.replicate 16 { items := [] },
         stream := [0, 0, 0, 0],
         trace := log }, 0, 4⟩
      (show _ = some ({ chunk := some 0, volume := 128, reserved := 1, playing := 1 } :
        mix_channel) from rfl)
      (show _ = some 0 from rfl)
      (show _ = some ({ buf := [], buflen := 0, deallocate_buf := 0, deallocate_me := 0,
                        bufpos := 0, callback := none, nextChunk := some 0 } : mix_chunk)
        from rfl)
      (show (0 : Int) - 0 ≤ 4 from by decide)
      (show SDL_MixAudioFormat exampleBlend [0, 0, 0, 0] 0 [] 0 (0 - 0) 128 =
        some [0, 0, 0, 0] from by decide)
      rfl rfl
      (show _ = some ({ buf := [], buflen := 0, deallocate_buf := 0, deallocate_me := 0,
                        bufpos := 0, callback := none, nextChunk := some 0 } : mix_chunk)
        from rfl)
    rw [whileLoop_step n _ (show (0 : Int) < 4 from by decide) hb]
    exact ih (log ++ [Event.mix 0 0 0 0 0 128])

/-- Counterexample to C18: channel 0 plays a chunk of length 0 whose
continuation is the chunk itself.  In a pass of 4 bytes the inner loop for
channel 0 never ends: whatever the fuel, it is used up, and so is that of the
whole callback. -/
theorem empty_self_loop_runs_forever :
    (∀ fuel : Nat,
      whileLoop noHooks exampleBlend fuel 0
          ⟨examplePass
            [some { buf := [], buflen := 0, deallocate_buf := 0, deallocate_me := 0,
                    bufpos := 0, callback := none, nextChunk := some 0 }]
            { chunk := some 0, volume := 128, reserved := 1, playing := 1 } ⟨[]⟩ 4, 0, 4⟩ =
        .outOfFuel) ∧
      (∀ fuel : Nat,
        MixCallback noHooks exampleBlend fuel 4
            (exampleMixer
              [some { buf := [], buflen := 0, deallocate_buf := 0, deallocate_me := 0,
                      bufpos := 0, callback := none, nextChunk := some 0 }]
              { chunk := some 0, volume := 128, reserved := 1, playing := 1 } ⟨[]⟩) =
          .outOfFuel) := by
  have hspin : ∀ fuel : Nat,
      whileLoop noHooks exampleBlend fuel 0
          ⟨examplePass
            [some { buf := [], buflen := 0, deallocate_buf := 0, deallocate_me := 0,
                    bufpos := 0, callback := none, nextChunk := some 0 }]
            { chunk := some 0, volume := 128, reserved := 1, playing := 1 } ⟨[]⟩ 4, 0, 4⟩ =
        .outOfFuel := fun fuel => empty_self_loop_spins fuel []
  refine ⟨hspin, fun fuel => ?_⟩
  have hmix : mixChannel noHooks exampleBlend fuel 4 0
      (examplePass
        [some { buf := [], buflen := 0, deallocate_buf := 0, deallocate_me := 0,
                bufpos := 0, callback := none, nextChunk := some 0 }]
        { chunk := some 0, volume := 128, reserved := 1, playing := 1 } ⟨[]⟩ 4) =
      .outOfFuel := by
    unfold mixChannel
    have hch : (examplePass
        [some { buf := [], buflen := 0, deallocate_buf := 0, deallocate_me := 0,
                bufpos := 0, callback := none, nextChunk := some 0 }]
        { chunk := some 0, volume := 128, reserved := 1, playing := 1 } ⟨[]⟩ 4).channels[0]? =
        some { chunk := some 0, volume := 128, reserved := 1, playing := 1 } := rfl
    simp only [hch]
    rw [if_neg (by decide), hspin fuel]
  have hcall : MixCallback noHooks exampleBlend fuel 4
      (exampleMixer
        [some { buf := [], buflen := 0, deallocate_buf := 0, deallocate_me := 0,
                bufpos := 0, callback := none, nextChunk := some 0 }]
        { chunk := some 0, volume := 128, reserved := 1, playing := 1 } ⟨[]⟩) =
      forChannels noHooks exampleBlend fuel 4 NUM_CHANNELS 0
        (examplePass
          [some { buf := [], buflen := 0, deallocate_buf := 0, deallocate_me := 0,
                  bufpos := 0, callback := none, nextChunk := some 0 }]
          { chunk := some 0, volume := 128, reserved := 1, playing := 1 } ⟨[]⟩ 4) := rfl
  rw [hcall]
  show forChannels noHooks exampleBlend fuel 4 (15 + 1) 0 _ = _
  rw [forChannels, hmix]

/-- The inner loop ends within `bytestogo` runs of its body when every chunk
has a byte beyond its cursor. -/
theorem whileLoop_ends_within (hooks : Nat → Hook) (blend : Blend) (i : Nat)
    (hhooks : ∀ f j a h, bytesLeft h → bytesLeft (hooks f j a h).1) :
    ∀ (fuel : Nat) (st : Loop), bytesLeft st.ps.heap → st.bytestogo.toNat ≤ fuel →
      whileLoop hooks blend fuel i st = .undefined ∨
        ∃ st1, whileLoop hooks blend fuel i st = .ok st1 ∧
          (st1.bytestogo ≤ 0 ∨ ∃ ch, st1.ps.channels[i]? = some ch ∧ ch.chunk = none) := by
  intro fuel
  induction fuel with
  | zero =>
    intro st _ hfuel
    have hgo : ¬ 0 < st.bytestogo := by omega
    exact Or.inr ⟨st, whileLoop_done hgo, Or.inl (by omega)⟩
  | succ n ih =>
    intro st hleft hfuel
    by_cases hgo : 0 < st.bytestogo
    · rw [whileLoop, if_pos hgo]
      cases hb : loopBody hooks blend i st with
      | undefined => exact Or.inl rfl
      | outOfFuel => exact absurd hb loopBody_ne_outOfFuel
      | ok res =>
        obtain ⟨st2, b⟩ := res
        obtain ⟨hstep, hcase⟩ := loopBody_run hgo hb
        cases b with
        | true =>
          simp only
          rcases hcase with ⟨hf, _⟩ | ⟨hf, _⟩ | ⟨_, ch, a, cur, _, _, hcur, hle, hbg, _⟩
          · cases hf
          · cases hf
          · have hav := hleft a cur hcur
            exact ih st2 (HeapStep_bytesLeft hhooks hstep hleft) (by omega)
        | false =>
          simp only
          rcases hcase with ⟨_, hst, hnull⟩ | ⟨_, hz, _⟩ | ⟨hf, _⟩
          · subst hst
            exact Or.inr ⟨st2, rfl, Or.inr hnull⟩
          · exact Or.inr ⟨st2, rfl, Or.inl (by omega)⟩
          · cases hf
    · exact Or.inr ⟨st, whileLoop_done hgo, Or.inl (by omega)⟩

/-- C18, amended: if every chunk has at least one byte beyond its cursor
(`0 ≤ bufpos < buflen`) and the callbacks keep it so, the inner loop for a
channel ends within `bytestogo` runs of its body (fuel `bytestogo` is enough):
it either stops at an access outside memory (undefined behaviour), or it
returns, and then no bytes remain to be filled or the channel has no current
chunk. -/
theorem whileLoop_ends (hooks : Nat → Hook) (blend : Blend) (i fuel : Nat) (st : Loop)
    (hhooks : ∀ f j a h, bytesLeft h → bytesLeft (hooks f j a h).1)
    (hleft : bytesLeft st.ps.heap) (hfuel : st.bytestogo.toNat ≤ fuel) :
    whileLoop hooks blend fuel i st = .undefined ∨
      ∃ st1, whileLoop hooks blend fuel i st = .ok st1 ∧
        (st1.bytestogo ≤ 0 ∨ ∃ ch, st1.ps.channels[i]? = some ch ∧ ch.chunk = none) :=
  whileLoop_ends_within hooks blend i hhooks fuel st hleft hfuel

set_option maxHeartbeats 4000000 in
/-- Witness for `whileLoop_ends`: a chunk of 3 bytes whose continuation is the
chunk itself, and a loop with 8 bytes to go.  The loop runs its body three
times (3, 3 and 2 bytes) and returns with no bytes to go. -/
theorem whileLoop_ends_witness :
    whileLoop noHooks exampleBlend 8 0
          ⟨examplePass [some (exampleChunk 3 0 none (some 0))]
            { chunk := some 0, volume := 128, reserved := 1, playing := 1 } ⟨[]⟩ 8, 0, 8⟩ =
        .ok ⟨{ heap := [some (exampleChunk 3 2 none (some 0))],
               channels := { chunk := some 0, volume := 128, reserved := 1, playing := 1 } ::
                 List.replicate 15 freshChannel,
               chunkstacks := { items := [] } :: List.replicate 15 { items := [] },
               stream := [64, 64, 64, 64, 64, 64, 64, 64],
               trace := [Event.mix 0 0 0 0 3 128, Event.mix 0 3 0 0 3 128,
                         Event.mix 0 6 0 0 2 128] }, 6, 0⟩ ∧
      (whileLoop noHooks exampleBlend 8 0
            ⟨examplePass [some (exampleChunk 3 0 none (some 0))]
              { chunk := some 0, volume := 128, reserved := 1, playing := 1 } ⟨[]⟩ 8, 0, 8⟩ =
          .undefined ∨
        ∃ st1,
          whileLoop noHooks exampleBlend 8 0
              ⟨examplePass [some (exampleChunk 3 0 none (some 0))]
                { chunk := some 0, volume := 128, reserved := 1, playing := 1 } ⟨[]⟩ 8, 0, 8⟩ =
            .ok st1 ∧
          (st1.bytestogo ≤ 0 ∨ ∃ ch, st1.ps.channels[0]? = some ch ∧ ch.chunk = none)) :=
  ⟨rfl,
    whileLoop_ends noHooks exampleBlend 0 8
      ⟨examplePass [some (exampleChunk 3 0 none (some 0))]
        { chunk := some 0, volume := 128, reserved := 1, playing := 1 } ⟨[]⟩ 8, 0, 8⟩
      (fun _ _ _ _ hh => hh) (bytesLeft_of_cells (by decide)) (by decide)⟩

/-! ## Channels that are paused or have no chunk -/

/-- The part of a pass for a channel that is paused or has no current chunk
returns the state it was given. -/
theorem mixChannel_idle (hooks : Nat → Hook) (blend : Blend) (fuel i : Nat) (len : Int)
    (ps : Pass) (ch : mix_channel) (hch : ps.channels[i]? = some ch) (hidle : ch.idle) :
    mixChannel hooks blend (fuel + 1) len i ps = .ok ps := by
  rcases hidle with hplay | hchunk
  · exact mixChannel_paused hch hplay
  · by_cases hplay : ch.playing = 0
    · exact mixChannel_paused hch hplay
    · unfold mixChannel
      simp only [hch]
      rw [if_neg hplay]
      by_cases hgo : (0 : Int) < len
      · have hb : loopBody hooks blend i ⟨ps, 0, len⟩ = .ok (⟨ps, 0, len⟩, false) :=
          loopBody_null ch hch hchunk
        rw [whileLoop_break fuel ⟨ps, 0, len⟩ hgo hb]
      · have hd : whileLoop hooks blend (fuel + 1) i ⟨ps, 0, len⟩ = .ok ⟨ps, 0, len⟩ :=
          whileLoop_done hgo
        rw [hd]

/-- Whatever the fuel, the part of a pass for a channel that is paused or has
no current chunk changes nothing when it returns. -/
theorem mixChannel_idle_eq {hooks : Nat → Hook} {blend : Blend} {fuel i : Nat} {len : Int}
    {ps ps1 : Pass} {ch : mix_channel} (hch : ps.channels[i]? = some ch) (hidle : ch.idle)
    (h : mixChannel hooks blend fuel len i ps = .ok ps1) : ps1 = ps := by
  cases fuel with
  | succ fuel =>
    rw [mixChannel_idle hooks blend fuel i len ps ch hch hidle] at h
    cases h
    rfl
  | zero =>
    unfold mixChannel at h
    simp only [hch] at h
    split at h
    · cases h
      rfl
    · by_cases hgo : (0 : Int) < len
      · rw [whileLoop, if_pos hgo] at h
        cases h
      · have hd : whileLoop hooks blend 0 i ⟨ps, 0, len⟩ = .ok ⟨ps, 0, len⟩ :=
          whileLoop_done hgo
        rw [hd] at h
        cases h
        rfl

/-- Through the outer loop, a channel that is paused or has no current chunk
keeps its table entry and its stack, and no mix or callback is logged for it. -/
theorem forChannels_quiet (hooks : Nat → Hook) (blend : Blend) (fuel i : Nat) (len : Int)
    (ch : mix_channel) (hidle : ch.idle) :
    ∀ (n s : Nat) (ps ps1 : Pass), ps.channels[i]? = some ch →
      forChannels hooks blend fuel len n s ps = .ok ps1 →
      ps1.channels[i]? = some ch ∧ ps1.chunkstacks[i]? = ps.chunkstacks[i]? ∧
        ∀ e ∈ ps1.trace, e ∈ ps.trace ∨ e.channel? ≠ some i := by
  intro n
  induction n with
  | zero =>
    intro s ps ps1 hch h
    rw [forChannels] at h
    cases h
    exact ⟨hch, rfl, fun _ he => Or.inl he⟩
  | succ n ih =>
    intro s ps ps1 hch h
    rw [forChannels] at h
    split at h
    · rename_i ps2 hmix
      by_cases hsi : s = i
      · subst hsi
        have h2 : ps2 = ps := mixChannel_idle_eq hch hidle hmix
        subst h2
        exact ih _ _ _ hch h
      · obtain ⟨f1, f2, _, _, f5⟩ := mixChannel_frame hmix
        have hch2 : ps2.channels[i]? = some ch := by rw [f1 i (Ne.symm hsi), hch]
        obtain ⟨g1, g2, g3⟩ := ih _ _ _ hch2 h
        refine ⟨g1, by rw [g2, f2 i (Ne.symm hsi)], fun e he => ?_⟩
        rcases g3 e he with h3 | h3
        · rcases f5 e h3 with h5 | h5 | h5
          · exact Or.inl h5
          · right; rw [h5]; intro hc; exact hsi (Option.some.inj hc)
          · right; rw [h5]; exact Option.noConfusion
        · exact Or.inr h3
    · cases h
    · cases h

/-- The outer loop over channels that are all paused or without a chunk
returns the state it was given. -/
theorem forChannels_all_idle (hooks : Nat → Hook) (blend : Blend) (fuel : Nat) (len : Int) :
    ∀ (n s : Nat) (ps : Pass),
      (∀ j, s ≤ j → j < s + n → ∃ c, ps.channels[j]? = some c ∧ c.idle) →
      forChannels hooks blend (fuel + 1) len n s ps = .ok ps := by
  intro n
  induction n with
  | zero =>
    intro s ps _
    rw [forChannels]
  | succ n ih =>
    intro s ps hidle
    obtain ⟨c, hc, hp⟩ := hidle s (le_refl _) (by omega)
    rw [forChannels, mixChannel_idle hooks blend fuel s len ps c hc hp]
    exact ih (s + 1) ps (fun j h1 h2 => hidle j (by omega) (by omega))

/-- C20: let channel `i` be paused or have no current chunk (`ch.idle`).
The part of a pass for channel `i` returns the state it was given: it mixes
nothing, calls no hook, pops no stack and moves no cursor.  Through a whole
pass (of mixer `m`, into `ps1`) channel `i` keeps its fields and its interrupt
stack, and no mix and no hook call is logged for it.  When every channel of a
mixer `m2` is paused or has no chunk, the pass over `len2` bytes returns `len2`
zero bytes and leaves the chunks, the channel table and the stacks as they
were. -/
theorem idle_channel_pass (hooks : Nat → Hook) (blend : Blend) (fuel fuel1 i : Nat)
    (len len1 len2 : Int) (ps ps1 : Pass) (m m2 : Mixer) (ch ch1 : mix_channel)
    (hch : ps.channels[i]? = some ch) (hidle : ch.idle)
    (hch1 : m.channels[i]? = some ch1) (hidle1 : ch1.idle)
    (hrun : MixCallback hooks blend fuel1 len1 m = .ok ps1)
    (hall : ∀ j, j < NUM_CHANNELS → ∃ c, m2.channels[j]? = some c ∧ c.idle)
    (hlen : 0 ≤ len2) :
    mixChannel hooks blend (fuel + 1) len i ps = .ok ps ∧
      (ps1.channels[i]? = some ch1 ∧ ps1.chunkstacks[i]? = m.chunkstacks[i]? ∧
        ∀ e ∈ ps1.trace, e.channel? ≠ some i) ∧
      MixCallback hooks blend (fuel + 1) len2 m2 =
        .ok { heap := m2.heap, channels := m2.channels, chunkstacks := m2.chunkstacks,
              stream := List.replicate len2.toNat 0, trace := [] } := by
  refine ⟨mixChannel_idle hooks blend fuel i len ps ch hch hidle, ?_, ?_⟩
  · unfold MixCallback at hrun
    split at hrun
    · cases hrun
    · obtain ⟨g1, g2, g3⟩ :=
        forChannels_quiet hooks blend fuel1 i len1 ch1 hidle1 NUM_CHANNELS 0 _ ps1 hch1 hrun
      refine ⟨g1, g2, fun e he => ?_⟩
      rcases g3 e he with h3 | h3
      · cases h3
      · exact h3
  · unfold MixCallback
    rw [if_neg (by omega)]
    apply forChannels_all_idle
    intro j _ hj
    exact hall j (by omega)

/-- Witness for `idle_channel_pass`: channel 0 of `exampleTwoChannels` is
paused above a non-empty stack while channel 1 plays; a pass of 4 bytes mixes
4 bytes of channel 1 and leaves channel 0 and its stack alone.  With channel 0
alone holding a chunk, a pass of 4 bytes returns 4 zero bytes. -/
theorem idle_channel_pass_witness :
    mixChannel noHooks exampleBlend (3 + 1) 4 0
        { heap := exampleTwoChannels.heap, channels := exampleTwoChannels.channels,
          chunkstacks := exampleTwoChannels.chunkstacks,
          stream := [0, 0, 0, 0], trace := [] } =
      .ok { heap := exampleTwoChannels.heap, channels := exampleTwoChannels.channels,
            chunkstacks := exampleTwoChannels.chunkstacks,
            stream := [0, 0, 0, 0], trace := [] } ∧
      (({ heap := [some (exampleChunk 9 2 none none), some (exampleChunk 9 4 none none),
                   some (exampleChunk 3 0 none none)],
          channels := exampleTwoChannels.channels,
          chunkstacks := exampleTwoChannels.chunkstacks,
          stream := [64, 64, 64, 64],
          trace := [Event.mix 1 0 1 0 4 128] } : Pass).channels[0]? =
          some { chunk := some 0, volume := 128, reserved := 1, playing := 0 } ∧
        ({ heap := [some (exampleChunk 9 2 none none), some (exampleChunk 9 4 none none),
                    some (exampleChunk 3 0 none none)],
           channels := exampleTwoChannels.channels,
           chunkstacks := exampleTwoChannels.chunkstacks,
           stream := [64, 64, 64, 64],
           trace := [Event.mix 1 0 1 0 4 128] } : Pass).chunkstacks[0]? =
          exampleTwoChannels.chunkstacks[0]? ∧
        ∀ e ∈ ({ heap := [some (exampleChunk 9 2 none none), some (exampleChunk 9 4 none none),
                          some (exampleChunk 3 0 none none)],
                 channels := exampleTwoChannels.channels,
                 chunkstacks := exampleTwoChannels.chunkstacks,
                 stream := [64, 64, 64, 64],
                 trace := [Event.mix 1 0 1 0 4 128] } : Pass).trace,
          e.channel? ≠ some 0) ∧
      MixCallback noHooks exampleBlend (3 + 1) 4
          (exampleMixer [some (exampleChunk 9 2 none none), some (exampleChunk 3 0 none none)]
            { chunk := some 0, volume := 128, reserved := 1, playing := 0 } ⟨[some 1]⟩) =
        .ok { heap := [some (exampleChunk 9 2 none none), some (exampleChunk 3 0 none none)],
              channels := (exampleMixer
                [some (exampleChunk 9 2 none none), some (exampleChunk 3 0 none none)]
                { chunk := some 0, volume := 128, reserved := 1, playing := 0 }
                ⟨[some 1]⟩).channels,
              chunkstacks := (exampleMixer
                [some (exampleChunk 9 2 none none), some (exampleChunk 3 0 none none)]
                { chunk := some 0, volume := 128, reserved := 1, playing := 0 }
                ⟨[some 1]⟩).chunkstacks,
              stream := List.replicate (4 : Int).toNat 0, trace := [] } :=
  idle_channel_pass noHooks exampleBlend 3 4 0 4 4 4
    { heap := exampleTwoChannels.heap, channels := exampleTwoChannels.channels,
      chunkstacks := exampleTwoChannels.chunkstacks, stream := [0, 0, 0, 0], trace := [] }
    { heap := [some (exampleChunk 9 2 none none), some (exampleChunk 9 4 none none),
               some (exampleChunk 3 0 none none)],
      channels := exampleTwoChannels.channels,
      chunkstacks := exampleTwoChannels.chunkstacks,
      stream := [64, 64, 64, 64],
      trace := [Event.mix 1 0 1 0 4 128] }
    exampleTwoChannels
    (exampleMixer [some (exampleChunk 9 2 none none), some (exampleChunk 3 0 none none)]
      { chunk := some 0, volume := 128, reserved := 1, playing := 0 } ⟨[some 1]⟩)
    { chunk := some 0, volume := 128, reserved := 1, playing := 0 }
    { chunk := some 0, volume := 128, reserved := 1, playing := 0 }
    rfl (by decide) rfl (by decide) rfl
    (fun j hj => by
      have hj16 : j < 16 := hj
      interval_cases j <;> exact ⟨_, rfl, by decide⟩)
    (by decide)

/-! ## Release of exhausted chunks and the channel flags -/

/-- C21 (the code at the failing input): channel 0 plays chunk 0, 3 bytes,
flagged `deallocate_buf` and `deallocate_me`, in a pass of 8 bytes; chunk 1 has
9 bytes.  When chunk 1 is the continuation of chunk 0, or is what the callback
of chunk 0 returns, the pass goes on to chunk 1 and frees nothing: chunk 0 and
its buffer are still allocated and the log has no `free`.  When chunk 1 is
popped from the interrupt stack, the buffer and the object of chunk 0 are
freed. -/
theorem continuation_skips_release :
    MixCallback noHooks exampleBlend 4 8
        (exampleMixer [some (ownedChunk 3 none (some 1)), some (exampleChunk 9 0 none none)]
          { chunk := some 0, volume := 128, reserved := 1, playing := 1 } ⟨[]⟩) =
      .ok { heap := [some (ownedChunk 3 none (some 1)), some (exampleChunk 9 5 none none)],
            channels := { chunk := some 1, volume := 128, reserved := 1, playing := 1 } ::
              List.replicate 15 freshChannel,
            chunkstacks := List.replicate 16 { items := [] },
            stream := [64, 64, 64, 64, 64, 64, 64, 64],
            trace := [Event.mix 0 0 0 0 3 128, Event.mix 0 3 1 0 5 128] } ∧
      MixCallback (hookReturns (some 1)) exampleBlend 4 8
        (exampleMixer [some (ownedChunk 3 (some 0) none), some (exampleChunk 9 0 none none)]
          { chunk := some 0, volume := 128, reserved := 1, playing := 1 } ⟨[]⟩) =
      .ok { heap := [some (ownedChunk 3 (some 0) none), some (exampleChunk 9 5 none none)],
            channels := { chunk := some 1, volume := 128, reserved := 1, playing := 1 } ::
              List.replicate 15 freshChannel,
            chunkstacks := List.replicate 16 { items := [] },
            stream := [64, 64, 64, 64, 64, 64, 64, 64],
            trace := [Event.mix 0 0 0 0 3 128, Event.callback 0 0,
                      Event.mix 0 3 1 0 5 128] } ∧
      MixCallback noHooks exampleBlend 4 8
        (exampleMixer [some (ownedChunk 3 none none), some (exampleChunk 9 0 none none)]
          { chunk := some 0, volume := 128, reserved := 1, playing := 1 } ⟨[some 1]⟩) =
      .ok { heap := [none, some (exampleChunk 9 5 none none)],
            channels := { chunk := some 1, volume := 128, reserved := 1, playing := 1 } ::
              List.replicate 15 freshChannel,
            chunkstacks := List.replicate 16 { items := [] },
            stream := [64, 64, 64, 64, 64, 64, 64, 64],
            trace := [Event.mix 0 0 0 0 3 128, Event.free_buf 0, Event.free_chunk 0,
                      Event.mix 0 3 1 0 5 128] } :=
  ⟨rfl, rfl, rfl⟩

/-- The part of a pass for channel `j` keeps the volume, reserved and playing
fields of every channel. -/
theorem mixChannel_fields {hooks : Nat → Hook} {blend : Blend} {fuel j : Nat} {len : Int}
    {ps ps1 : Pass} (h : mixChannel hooks blend fuel len j ps = .ok ps1) (k : Nat) :
    ps1.channels[k]?.map (fun (c : mix_channel) => (c.volume, c.reserved, c.playing)) =
      ps.channels[k]?.map (fun (c : mix_channel) => (c.volume, c.reserved, c.playing)) := by
  obtain ⟨f1, _, f3, _, _⟩ := mixChannel_frame h
  by_cases hk : k = j
  · subst hk
    exact f3
  · rw [f1 k hk]

/-- The outer loop keeps the volume, reserved and playing fields of every
channel. -/
theorem forChannels_fields {hooks : Nat → Hook} {blend : Blend} {fuel : Nat} {len : Int} :
    ∀ (n s : Nat) (ps ps1 : Pass), forChannels hooks blend fuel len n s ps = .ok ps1 →
      ∀ k : Nat,
        ps1.channels[k]?.map (fun (c : mix_channel) => (c.volume, c.reserved, c.playing)) =
          ps.channels[k]?.map (fun (c : mix_channel) => (c.volume, c.reserved, c.playing)) := by
  intro n
  induction n with
  | zero =>
    intro s ps ps1 h k
    rw [forChannels] at h
    cases h
    rfl
  | succ n ih =>
    intro s ps ps1 h k
    rw [forChannels] at h
    split at h
    · rename_i ps2 hmix
      rw [ih _ _ _ h k, mixChannel_fields hmix k]
    · cases h
    · cases h

/-- C24: a mixing pass that returns leaves every channel with the volume,
reserved and playing fields it had (channel `k`, before `c`, after `c1`).  In
particular, when the pass reaches a playing channel `i` whose current chunk has
no callback and no continuation, above an empty stack, and asks for at least
the bytes the chunk has left, the channel is left with no current chunk and
with `playing` as it was, not 0. -/
theorem pass_keeps_flags (hooks : Nat → Hook) (blend : Blend) (fuel fuel2 k i : Nat)
    (len len2 : Int) (m : Mixer) (ps1 ps : Pass) (c ch : mix_channel) (a : Nat)
    (cur : mix_chunk) (stream1 : List Nat)
    (hrun : MixCallback hooks blend fuel len m = .ok ps1) (hk : m.channels[k]? = some c)
    (hch : ps.channels[i]? = some ch) (hplay : ch.playing ≠ 0) (hchunk : ch.chunk = some a)
    (hcur : readChunk ps.heap a = some cur)
    (hB0 : 0 < len2) (hex : cur.buflen - cur.bufpos ≤ len2)
    (hmix : SDL_MixAudioFormat blend ps.stream 0 cur.buf cur.bufpos
      (cur.buflen - cur.bufpos) ch.volume = some stream1)
    (hcb : cur.callback = none) (hnx : cur.nextChunk = none)
    (hstk : ps.chunkstacks[i]? = some ⟨[]⟩) :
    (∃ c1, ps1.channels[k]? = some c1 ∧ c1.volume = c.volume ∧ c1.reserved = c.reserved ∧
        c1.playing = c.playing) ∧
      ∃ ps2, mixChannel hooks blend (fuel2 + 2) len2 i ps = .ok ps2 ∧
        ps2.channels[i]? =
          some { chunk := none, volume := ch.volume, reserved := ch.reserved,
                 playing := ch.playing } ∧
        ch.playing ≠ 0 := by
  constructor
  · unfold MixCallback at hrun
    split at hrun
    · cases hrun
    · have hf := forChannels_fields _ _ _ _ hrun k
      simp only [hk, Option.map_some'] at hf
      cases hc1 : ps1.channels[k]? with
      | none => rw [hc1] at hf; cases hf
      | some c1 =>
        rw [hc1] at hf
        simp only [Option.map_some', Option.some.injEq, Prod.mk.injEq] at hf
        exact ⟨c1, rfl, hf.1, hf.2.1, hf.2.2⟩
  · refine ⟨_, mixChannel_finish hch hplay hchunk hcur hB0 hex hmix hcb hnx hstk, ?_, hplay⟩
    rw [releaseChunk_channels]
    simp [lt_length_of_getElem? hch]

/-- Witness for `pass_keeps_flags`: channel 0 plays a chunk of 3 bytes in a pass
of 8 bytes; it ends with no current chunk and `playing = 1`. -/
theorem pass_keeps_flags_witness :
    MixCallback noHooks exampleBlend 4 8
        (exampleMixer [some (exampleChunk 3 0 none none)]
          { chunk := some 0, volume := 128, reserved := 1, playing := 1 } ⟨[]⟩) =
      .ok { heap := [some (exampleChunk 3 0 none none)],
            channels := { chunk := none, volume := 128, reserved := 1, playing := 1 } ::
              List.replicate 15 freshChannel,
            chunkstacks := List.replicate 16 { items := [] },
            stream := [64, 64, 64, 0, 0, 0, 0, 0],
            trace := [Event.mix 0 0 0 0 3 128] } ∧
      (∃ c1,
        ({ chunk := none, volume := 128, reserved := 1, playing := 1 } ::
            List.replicate 15 freshChannel)[0]? = some c1 ∧
          c1.volume = 128 ∧ c1.reserved = 1 ∧ c1.playing = 1) ∧
      ∃ ps2,
        mixChannel noHooks exampleBlend (2 + 2) 8 0
            (examplePass [some (exampleChunk 3 0 none none)]
              { chunk := some 0, volume := 128, reserved := 1, playing := 1 } ⟨[]⟩ 8) =
          .ok ps2 ∧
        ps2.channels[0]? = some { chunk := none, volume := 128, reserved := 1, playing := 1 } ∧
        (1 : Nat) ≠ 0 :=
  ⟨rfl,
    pass_keeps_flags noHooks exampleBlend 4 2 0 0 8 8
      (exampleMixer [some (exampleChunk 3 0 none none)]
        { chunk := some 0, volume := 128, reserved := 1, playing := 1 } ⟨[]⟩)
      { heap := [some (exampleChunk 3 0 none none)],
        channels := { chunk := none, volume := 128, reserved := 1, playing := 1 } ::
          List.replicate 15 freshChannel,
        chunkstacks := List.replicate 16 { items := [] },
        stream := [64, 64, 64, 0, 0, 0, 0, 0],
        trace := [Event.mix 0 0 0 0 3 128] }
      (examplePass [some (exampleChunk 3 0 none none)]
        { chunk := some 0, volume := 128, reserved := 1, playing := 1 } ⟨[]⟩ 8)
      { chunk := some 0, volume := 128, reserved := 1, playing := 1 }
      { chunk := some 0, volume := 128, reserved := 1, playing := 1 }
      0 (exampleChunk 3 0 none none) [64, 64, 64, 0, 0, 0, 0, 0]
      rfl rfl rfl (by decide) rfl rfl (by decide) (by decide) rfl rfl rfl rfl⟩

/-! ## The bounds of the mixes -/

theorem runCallback_trace (hooks : Nat → Hook) (i a : Nat) (cur : mix_chunk) (h : Heap) :
    ∀ e ∈ (runCallback hooks i a cur h).2.2, e.isMix = false := by
  unfold runCallback
  cases cur.callback with
  | none =>
    intro e he
    cases he
  | some f =>
    intro e he
    simp only [List.mem_singleton] at he
    subst he
    rfl

theorem releaseChunk_trace_ext (a : Nat) (cur : mix_chunk) (ps : Pass) :
    ∃ rest, (releaseChunk a cur ps).trace = ps.trace ++ rest ∧ ∀ e ∈ rest, e.isMix = false := by
  refine ⟨_, releaseChunk_trace a cur ps, ?_⟩
  intro e he
  rcases List.mem_append.1 he with he | he
  · split at he
    · rw [List.mem_singleton] at he
      subst he
      rfl
    · cases he
  · split at he
    · rw [List.mem_singleton] at he
      subst he
      rfl
    · cases he

/-- The end of a chunk logs no mix: what it adds to the log are callback and
free entries. -/
theorem chunkEnd_trace {hooks : Nat → Hook} {i : Nat} {ch : mix_channel} {a : Nat}
    {cur : mix_chunk} {n : Int} {st st1 : Loop} {b : Bool}
    (h : chunkEnd hooks i ch a cur n st = .ok (st1, b)) :
    ∃ rest, st1.ps.trace = st.ps.trace ++ rest ∧ ∀ e ∈ rest, e.isMix = false := by
  have hcb := runCallback_trace hooks i a cur st.ps.heap
  unfold chunkEnd at h
  simp only at h
  split at h
  · cases h
    exact ⟨_, rfl, hcb⟩
  · split at h
    · cases h
    · rename_i cur1 hcur1
      split at h
      · split at h
        · cases h
        · cases h
          exact ⟨_, rfl, hcb⟩
      · split at h
        · cases h
        · split at h
          · split at h
            · cases h
            · cases h
              obtain ⟨r2, h2, hr2⟩ := releaseChunk_trace_ext a cur1
                { heap := (runCallback hooks i a cur st.ps.heap).1,
                  channels := _, chunkstacks := _, stream := st.ps.stream,
                  trace := st.ps.trace ++ (runCallback hooks i a cur st.ps.heap).2.2 }
              refine ⟨(runCallback hooks i a cur st.ps.heap).2.2 ++ r2, ?_, ?_⟩
              · rw [← List.append_assoc]
                exact h2
              · intro e he
                rcases List.mem_append.1 he with he | he
                · exact hcb e he
                · exact hr2 e he
          · cases h
            obtain ⟨r2, h2, hr2⟩ := releaseChunk_trace_ext a cur1
              { heap := (runCallback hooks i a cur st.ps.heap).1,
                channels := _, chunkstacks := _, stream := st.ps.stream,
                trace := st.ps.trace ++ (runCallback hooks i a cur st.ps.heap).2.2 }
            refine ⟨(runCallback hooks i a cur st.ps.heap).2.2 ++ r2, ?_, ?_⟩
            · rw [← List.append_assoc]
              exact h2
            · intro e he
              rcases List.mem_append.1 he with he | he
              · exact hcb e he
              · exact hr2 e he

/-- The one mix a run of the loop body issues: at the stream position and the
cursor of the current chunk, over `min (buflen - bufpos) bytestogo` bytes. -/
theorem loopBody_mix {hooks : Nat → Hook} {blend : Blend} {i : Nat} {st st1 : Loop} {b : Bool}
    {ch : mix_channel} {a : Nat} {cur : mix_chunk}
    (hch : st.ps.channels[i]? = some ch) (hchunk : ch.chunk = some a)
    (hcur : readChunk st.ps.heap a = some cur)
    (h : loopBody hooks blend i st = .ok (st1, b)) :
    ∃ rest, st1.ps.trace = st.ps.trace ++
        Event.mix i st.streampos a cur.bufpos (min (cur.buflen - cur.bufpos) st.bytestogo)
          ch.volume :: rest ∧
      ∀ e ∈ rest, e.isMix = false := by
  unfold loopBody at h
  simp only [hch, hchunk, hcur] at h
  split at h
  · rename_i hgt
    split at h
    · cases h
    · cases h
      refine ⟨[], ?_, fun e he => by cases he⟩
      rw [min_eq_right (by omega)]
  · rename_i hngt
    split at h
    · rename_i heq
      split at h
      · cases h
      · obtain ⟨rest, h1, h2⟩ := chunkEnd_trace h
        refine ⟨rest, ?_, h2⟩
        rw [h1, min_eq_right (by omega)]
        simp
    · rename_i hne
      split at h
      · cases h
      · obtain ⟨rest, h1, h2⟩ := chunkEnd_trace h
        refine ⟨rest, ?_, h2⟩
        rw [h1, min_eq_left (by omega)]
        simp

/-- At every head of the inner loop that is reached from `(ps, 0, len)`, when
the cursor of every current chunk reached is within its chunk:
`streampos + bytestogo = len`, and both are not negative. -/
theorem loopHead_sum {hooks : Nat → Hook} {blend : Blend} {i : Nat} {len : Int} {ps : Pass}
    (hlen : 0 ≤ len)
    (hreach : ∀ st2 ch2 a2 c2, LoopHead hooks blend i ⟨ps, 0, len⟩ st2 →
      st2.ps.channels[i]? = some ch2 → ch2.chunk = some a2 →
      readChunk st2.ps.heap a2 = some c2 → 0 ≤ c2.bufpos ∧ c2.bufpos ≤ c2.buflen)
    {st : Loop} (hhead : LoopHead hooks blend i ⟨ps, 0, len⟩ st) :
    st.streampos + st.bytestogo = len ∧ 0 ≤ st.streampos ∧ 0 ≤ st.bytestogo := by
  induction hhead with
  | start => exact ⟨by simp, le_refl _, hlen⟩
  | next st st1 hprev hgo hb ih =>
    obtain ⟨h1, h2, h3⟩ := ih
    rcases (loopBody_run hgo hb).2 with hc | hc | hc
    · cases hc.1
    · cases hc.1
    · obtain ⟨_, ch, a, cur, hch, hchunk, hcur, hle, hbg, hsp⟩ := hc
      have hb2 := hreach st ch a cur hprev hch hchunk hcur
      omega

/-- When the cursor bound holds for every chunk before the loop and the
callbacks keep it, it holds at every head that is reached. -/
theorem loopHead_cursorBound {hooks : Nat → Hook} {blend : Blend} {i : Nat} {st0 st : Loop}
    (hhooks : ∀ f j a h, cursorBound (fun _ => True) h →
      cursorBound (fun _ => True) (hooks f j a h).1)
    (hS : cursorBound (fun _ => True) st0.ps.heap)
    (hhead : LoopHead hooks blend i st0 st) : cursorBound (fun _ => True) st.ps.heap := by
  induction hhead with
  | start => exact hS
  | next st st1 _ hgo hb ih => exact HeapStep_cursorBound hhooks (loopBody_run hgo hb).1 ih

/-- A run of the inner loop that returns ends at a head that is reached: there
the loop test fails, or the body leaves the loop with `break`. -/
theorem whileLoop_heads {hooks : Nat → Hook} {blend : Blend} {i : Nat} (st0 : Loop) :
    ∀ (fuel : Nat) (st st1 : Loop), LoopHead hooks blend i st0 st →
      whileLoop hooks blend fuel i st = .ok st1 →
      ∃ sth, LoopHead hooks blend i st0 sth ∧
        ((¬ 0 < sth.bytestogo ∧ st1 = sth) ∨
          (0 < sth.bytestogo ∧ loopBody hooks blend i sth = .ok (st1, false))) := by
  intro fuel
  induction fuel with
  | zero =>
    intro st st1 hhead h
    rw [whileLoop] at h
    split at h
    · cases h
    · rename_i hgo
      cases h
      exact ⟨_, hhead, Or.inl ⟨hgo, rfl⟩⟩
  | succ n ih =>
    intro st st1 hhead h
    rw [whileLoop] at h
    split at h
    · rename_i hgo
      split at h
      · rename_i st2 hb
        exact ih _ _ (LoopHead.next _ _ hhead hgo hb) h
      · rename_i st2 hb
        cases h
        exact ⟨_, hhead, Or.inr ⟨hgo, hb⟩⟩
      · cases h
      · cases h
    · rename_i hgo
      cases h
      exact ⟨_, hhead, Or.inl ⟨hgo, rfl⟩⟩

/-- C23: take a pass of `len ≥ 0` bytes that reaches channel `i` in state `ps`,
and let the cursor of every current chunk the inner loop reaches be within its
chunk (`0 ≤ bufpos ≤ buflen`).  At every head `st` of the inner loop
`streampos + bytestogo = len`, with both not negative.  The run of the body at
`st`, for current chunk `cur`, issues one mix: at output offset `streampos`,
chunk offset `bufpos`, over `n = min (buflen - bufpos) bytestogo` bytes, with
`0 ≤ n`, `streampos + n ≤ len`, `0 ≤ bufpos` and `bufpos + n ≤ buflen`.  So when
the stream has `len` bytes and the buffer `buflen` bytes, the mix is inside
both. -/
theorem mix_in_bounds (hooks : Nat → Hook) (blend : Blend) (i : Nat) (len : Int) (ps : Pass)
    (st : Loop) (hlen : 0 ≤ len)
    (hreach : ∀ st2 ch2 a2 c2, LoopHead hooks blend i ⟨ps, 0, len⟩ st2 →
      st2.ps.channels[i]? = some ch2 → ch2.chunk = some a2 →
      readChunk st2.ps.heap a2 = some c2 → 0 ≤ c2.bufpos ∧ c2.bufpos ≤ c2.buflen)
    (hhead : LoopHead hooks blend i ⟨ps, 0, len⟩ st) :
    st.streampos + st.bytestogo = len ∧ 0 ≤ st.streampos ∧ 0 ≤ st.bytestogo ∧
      ∀ (ch : mix_channel) (a : Nat) (cur : mix_chunk),
        st.ps.channels[i]? = some ch → ch.chunk = some a → readChunk st.ps.heap a = some cur →
        0 ≤ min (cur.buflen - cur.bufpos) st.bytestogo ∧
          st.streampos + min (cur.buflen - cur.bufpos) st.bytestogo ≤ len ∧
          0 ≤ cur.bufpos ∧
          cur.bufpos + min (cur.buflen - cur.bufpos) st.bytestogo ≤ cur.buflen ∧
          (∀ st1 b, loopBody hooks blend i st = .ok (st1, b) →
            ∃ rest, st1.ps.trace = st.ps.trace ++
                Event.mix i st.streampos a cur.bufpos
                  (min (cur.buflen - cur.bufpos) st.bytestogo) ch.volume :: rest ∧
              ∀ e ∈ rest, e.isMix = false) ∧
          (len ≤ st.ps.stream.length → cur.buflen ≤ cur.buf.length →
            ∃ stream1, SDL_MixAudioFormat blend st.ps.stream st.streampos cur.buf cur.bufpos
              (min (cur.buflen - cur.bufpos) st.bytestogo) ch.volume = some stream1) := by
  obtain ⟨h1, h2, h3⟩ := loopHead_sum hlen hreach hhead
  refine ⟨h1, h2, h3, ?_⟩
  intro ch a cur hch hchunk hcur
  obtain ⟨hb1, hb2⟩ := hreach st ch a cur hhead hch hchunk hcur
  have hmin1 : min (cur.buflen - cur.bufpos) st.bytestogo ≤ cur.buflen - cur.bufpos :=
    min_le_left _ _
  have hmin2 : min (cur.buflen - cur.bufpos) st.bytestogo ≤ st.bytestogo := min_le_right _ _
  have hmin0 : 0 ≤ min (cur.buflen - cur.bufpos) st.bytestogo := le_min (by omega) h3
  refine ⟨hmin0, by omega, hb1, by omega, ?_, ?_⟩
  · intro st1 b hrun
    exact loopBody_mix hch hchunk hcur hrun
  · intro hstream hbuf
    exact ⟨_, SDL_MixAudioFormat_eq blend ch.volume
      ⟨hmin0, h2, by omega, hb1, by omega⟩⟩

/-- Witness for `mix_in_bounds`: the second head of the inner loop over
`exampleChain`, where 5 bytes of chunk 1 are mixed at stream offset 3. -/
theorem mix_in_bounds_witness :
    LoopHead noHooks exampleBlend 0 ⟨exampleChain, 0, 8⟩ exampleChainHead ∧
      loopBody noHooks exampleBlend 0 exampleChainHead =
        .ok ({ ps := { heap := [some (exampleChunk 3 0 none (some 1)),
                                some (exampleChunk 9 5 none none)],
                       channels :=
                         { chunk := some 1, volume := 128, reserved := 1, playing := 1 } ::
                           List.replicate 15 freshChannel,
                       chunkstacks := List.replicate 16 { items := [] },
                       stream := [64, 64, 64, 64, 64, 64, 64, 64],
                       trace := [Event.mix 0 0 0 0 3 128, Event.mix 0 3 1 0 5 128] },
               streampos := 3, bytestogo := 0 }, false) ∧
      (exampleChainHead.streampos + exampleChainHead.bytestogo = 8 ∧
        0 ≤ exampleChainHead.streampos ∧ 0 ≤ exampleChainHead.bytestogo) ∧
      (0 ≤ min ((exampleChunk 9 0 none none).buflen - (exampleChunk 9 0 none none).bufpos)
            exampleChainHead.bytestogo ∧
        exampleChainHead.streampos +
            min ((exampleChunk 9 0 none none).buflen - (exampleChunk 9 0 none none).bufpos)
              exampleChainHead.bytestogo ≤ 8 ∧
        0 ≤ (exampleChunk 9 0 none none).bufpos ∧
        (exampleChunk 9 0 none none).bufpos +
            min ((exampleChunk 9 0 none none).buflen - (exampleChunk 9 0 none none).bufpos)
              exampleChainHead.bytestogo ≤ (exampleChunk 9 0 none none).buflen) ∧
      ∃ stream1,
        SDL_MixAudioFormat exampleBlend exampleChainHead.ps.stream exampleChainHead.streampos
          (exampleChunk 9 0 none none).buf (exampleChunk 9 0 none none).bufpos
          (min ((exampleChunk 9 0 none none).buflen - (exampleChunk 9 0 none none).bufpos)
            exampleChainHead.bytestogo) 128 = some stream1 :=
  have hhead : LoopHead noHooks exampleBlend 0 ⟨exampleChain, 0, 8⟩ exampleChainHead :=
    LoopHead.next _ _ LoopHead.start (by decide) rfl
  have h := mix_in_bounds noHooks exampleBlend 0 8 exampleChain exampleChainHead (by decide)
    (fun _ _ a2 c2 hh _ _ hc =>
      loopHead_cursorBound (fun _ _ _ _ x => x) (cursorBound_of_cells _ (by decide)) hh
        a2 c2 trivial hc)
    hhead
  have h2 := h.2.2.2 { chunk := some 1, volume := 128, reserved := 1, playing := 1 } 1
    (exampleChunk 9 0 none none) rfl rfl rfl
  ⟨hhead, rfl, ⟨h.1, h.2.1, h.2.2.1⟩, ⟨h2.1, h2.2.1, h2.2.2.1, h2.2.2.2.1⟩,
    h2.2.2.2.2.2 (by decide) (by decide)⟩

end OrgMixer
